import Mathlib

/-!
Verification development for the `phlcensus` LODES pipelines.

The repository reshapes LODES census CSV files with pandas.  We embed the
relevant fragment of pandas shallowly: a data frame is a `Table` (ordered
column names, rows of cell values, and an integer row index), and each pandas
operation used by `phlcensus/economic/lodes_long.py` and
`phlcensus/economic/lodes/summary.py` is translated to an executable Lean
function on `Table`.  Network reads are modelled by an oracle
`files : String → Table` together with an explicit log of the file names
requested, so that "no file is fetched before validation" is provable.
-/

namespace PhlCensus

/-- A cell of a data frame: a string, an integer, or a missing value (NaN). -/
inductive Val where
  | str (s : String)
  | int (n : Int)
  | nan
deriving DecidableEq

/-- Numeric reading of a cell, as used by pandas sums with `skipna=True`:
integers count as themselves, everything else contributes zero. -/
def Val.toIntOr0 : Val → Int
  | .int n => n
  | _ => 0

/-- Lexicographic comparison of character lists by code point (the order
Python uses on strings). -/
def charListLE : List Char → List Char → Bool
  | [], _ => true
  | _ :: _, [] => false
  | a :: as, b :: bs =>
      if a.toNat < b.toNat then true
      else if b.toNat < a.toNat then false
      else charListLE as bs

/-- Lexicographic string comparison. -/
def strLEb (s t : String) : Bool := charListLE s.data t.data

/-- The ordering pandas uses on our cells when sorting: within a type the
natural order, and across types a fixed arbitrary order (never exercised by
the pipelines, whose sort keys are homogeneous string columns). -/
def valLEb : Val → Val → Bool
  | .int a, .int b => decide (a ≤ b)
  | .int _, _ => true
  | .str _, .int _ => false
  | .str a, .str b => strLEb a b
  | .str _, .nan => true
  | .nan, .nan => true
  | .nan, _ => false

/-- A shallow embedding of a pandas `DataFrame`: ordered column labels, rows
of cells (one list per row, positionally aligned with `cols`), and the row
index labels. -/
structure Table where
  cols : List String
  rows : List (List Val)
  index : List Nat
deriving DecidableEq

/-- Label-based cell access, `row[col]`: the value at the position of the
first column named `name`, or NaN when the label is absent (pandas raises
there; the pipelines only look up labels they know to be present). -/
def lookupVal : List String → List Val → String → Val
  | c :: cs, v :: vs, name => if c = name then v else lookupVal cs vs name
  | _, _, _ => Val.nan

/-! ### The pandas operations used by the pipelines -/

/-- Label-based column selection, `df[cs]`. -/
def selectCols (t : Table) (cs : List String) : Table :=
  { cols := cs, rows := t.rows.map (fun r => cs.map (lookupVal t.cols r)), index := t.index }

/-- Column renaming, `df.rename(columns=m)`: every label is pushed through the
mapping, labels absent from the mapping are kept. -/
def renameCols (t : Table) (m : List (String × String)) : Table :=
  { t with cols := t.cols.map (fun c => ((List.lookup c m).getD c)) }

/-- Replace the value at the first occurrence of a label. -/
def setAtFirst : List String → List Val → String → Val → List Val
  | c :: cs, v :: vs, name, w => if c = name then w :: vs else v :: setAtFirst cs vs name w
  | _, row, _, _ => row

/-- Column assignment, `df[name] = f(row)`: overwrite the column when the
label exists, append it at the right end otherwise (pandas semantics). -/
def setColF (t : Table) (name : String) (f : List Val → Val) : Table :=
  if name ∈ t.cols then
    { t with rows := t.rows.map (fun r => setAtFirst t.cols r name (f r)) }
  else
    { cols := t.cols ++ [name], rows := t.rows.map (fun r => r ++ [f r]),
      index := t.index }

/-- Pointwise transformation of one column, `df.assign(name=lambda df: f(df[name]))`. -/
def mapColVals (t : Table) (name : String) (f : Val → Val) : Table :=
  setColF t name (fun r => f (lookupVal t.cols r name))

/-- `astype(str)` on a cell: integers render in decimal, NaN renders as
the string "nan". -/
def Val.astypeStr : Val → Val
  | .int n => .str (toString n)
  | .str s => .str s
  | .nan => .str "nan"

/-- `df.assign(name=lambda df: df[name].astype(str))`. -/
def astypeStrCol (t : Table) (name : String) : Table := mapColVals t name Val.astypeStr

/-- Boolean row filtering, `df.query(...)` / boolean-mask selection: rows and
their index labels survive together. -/
def filterRowsT (t : Table) (p : List Val → Bool) : Table :=
  let pairs := (t.index.zip t.rows).filter (fun pr => p pr.2)
  { cols := t.cols, rows := pairs.map (fun pr => pr.2), index := pairs.map (fun pr => pr.1) }

/-- `pd.concat([a, b])` for frames sharing a schema: the second frame is
aligned to the columns of the first, rows and index labels are appended. -/
def concatT (a b : Table) : Table :=
  { cols := a.cols,
    rows := a.rows ++ b.rows.map (fun r => a.cols.map (lookupVal b.cols r)),
    index := a.index ++ b.index }

/-- `df.drop_duplicates(subset=[key])`: keep the first row for every value of
`key`, preserving order and surviving index labels. -/
def dropDupByAux (cols : List String) (key : String) :
    List (Nat × List Val) → List Val → List (Nat × List Val)
  | [], _ => []
  | pr :: rest, seen =>
      let k := lookupVal cols pr.2 key
      if seen.contains k then dropDupByAux cols key rest seen
      else pr :: dropDupByAux cols key rest (k :: seen)

def dropDupBy (t : Table) (key : String) : Table :=
  let pairs := dropDupByAux t.cols key (t.index.zip t.rows) []
  { cols := t.cols, rows := pairs.map (fun pr => pr.2), index := pairs.map (fun pr => pr.1) }

/-- `df.reset_index(drop=True)`. -/
def resetIndexDrop (t : Table) : Table := { t with index := List.range t.rows.length }

/-- Row comparison by the value of a sort key. -/
def rowKeyLE (cols : List String) (key : String) (a b : Nat × List Val) : Prop :=
  valLEb (lookupVal cols a.2 key) (lookupVal cols b.2 key) = true

instance (cols : List String) (key : String) : DecidableRel (rowKeyLE cols key) :=
  fun a b => by unfold rowKeyLE; infer_instance

/-- `df.sort_values(key)`: rows are rearranged in ascending order of the key
column, index labels travel with their rows.  (pandas' quicksort is not
stable; any ascending rearrangement is an admissible model, and the pipelines
sort tables whose key column is duplicate-free.) -/
def sortValuesBy (t : Table) (key : String) : Table :=
  let pairs := List.insertionSort (rowKeyLE t.cols key) (t.index.zip t.rows)
  { cols := t.cols, rows := pairs.map (fun pr => pr.2), index := pairs.map (fun pr => pr.1) }

/-- Lexicographic comparison of group-key tuples. -/
def keyLEb : List Val → List Val → Bool
  | [], _ => true
  | _ :: _, [] => false
  | a :: as, b :: bs => if valLEb a b then (if valLEb b a then keyLEb as bs else true) else false

/-- The key tuple of a row under a group-by. -/
def keyOfRow (t : Table) (keys : List String) (r : List Val) : List Val :=
  keys.map (lookupVal t.cols r)

/-- The distinct key tuples, in ascending order (pandas sorts group keys by
default). -/
def groupKeysSorted (t : Table) (keys : List String) : List (List Val) :=
  List.insertionSort (fun a b => keyLEb a b = true) ((t.rows.map (keyOfRow t keys)).dedup)

/-- The output row of a group: the key tuple followed by the per-column sums
over the group's rows (`skipna=True`). -/
def groupRowOf (t : Table) (keys vals : List String) (k : List Val) : List Val :=
  k ++ vals.map (fun c =>
    Val.int (((t.rows.filter (fun r => keyOfRow t keys r == k)).foldl
      (fun acc r => acc + (lookupVal t.cols r c).toIntOr0) 0)))

/-- `df[keys + vals].groupby(keys).sum().reset_index()`: one output row per
distinct key tuple, key tuples in ascending order, value columns summed,
fresh dense index. -/
def groupbySum (t : Table) (keys : List String) (vals : List String) : Table :=
  { cols := keys ++ vals,
    rows := (groupKeysSorted t keys).map (groupRowOf t keys vals),
    index := List.range ((groupKeysSorted t keys).map (groupRowOf t keys vals)).length }

/-- Inner merge on a key column present in both frames under the same name,
`l.merge(r, on=key)` (also `left_on=key, right_on=key`): the key column
appears once, right rows are matched in order against each left row. -/
def mergeOn (l r : Table) (key : String) : Table :=
  let rcols := r.cols.filter (fun c => c ≠ key)
  let rows := (l.rows.map (fun lr =>
    (r.rows.filter (fun rr => lookupVal r.cols rr key == lookupVal l.cols lr key)).map
      (fun rr => l.cols.map (lookupVal l.cols lr) ++ rcols.map (lookupVal r.cols rr)))).flatten
  { cols := l.cols ++ rcols, rows := rows, index := List.range rows.length }

/-- Inner merge with differently named key columns,
`l.merge(r, left_on=lkey, right_on=rkey)`: both key columns are kept. -/
def mergeKeys (l r : Table) (lkey rkey : String) : Table :=
  let rows := (l.rows.map (fun lr =>
    (r.rows.filter (fun rr => lookupVal r.cols rr rkey == lookupVal l.cols lr lkey)).map
      (fun rr => l.cols.map (lookupVal l.cols lr) ++ r.cols.map (lookupVal r.cols rr)))).flatten
  { cols := l.cols ++ r.cols, rows := rows, index := List.range rows.length }

/-- Left merge with differently named key columns,
`l.merge(r, left_on=lkey, right_on=rkey, how="left")`: unmatched left rows
survive with NaN in every right column. -/
def mergeLeftKeys (l r : Table) (lkey rkey : String) : Table :=
  let rows := (l.rows.map (fun lr =>
    let ms := r.rows.filter (fun rr => lookupVal r.cols rr rkey == lookupVal l.cols lr lkey)
    if ms.isEmpty then [l.cols.map (lookupVal l.cols lr) ++ r.cols.map (fun _ => Val.nan)]
    else ms.map (fun rr => l.cols.map (lookupVal l.cols lr) ++ r.cols.map (lookupVal r.cols rr)))).flatten
  { cols := l.cols ++ r.cols, rows := rows, index := List.range rows.length }

/-- Does column `i` hold the integer zero in every row?  On an empty frame
this is vacuously true, exactly as pandas' `(out == 0).all()`. -/
def colAllZero (rows : List (List Val)) (i : Nat) : Bool :=
  rows.all (fun r => r.getD i Val.nan == Val.int 0)

/-- The boolean keep-mask `~(out == 0).all()`, one entry per column. -/
def keepMaskAux (rows : List (List Val)) : Nat → List String → List Bool
  | _, [] => []
  | i, _ :: cs => (!colAllZero rows i) :: keepMaskAux rows (i + 1) cs

/-- Boolean-mask selection on a list, `xs[mask]`. -/
def maskList {α : Type} : List Bool → List α → List α
  | true :: ms, x :: xs => x :: maskList ms xs
  | false :: ms, _ :: xs => maskList ms xs
  | _, _ => []

/-- `out.columns[~(out == 0).all()]`. -/
def keptLabels (t : Table) : List String := maskList (keepMaskAux t.rows 0 t.cols) t.cols

/-- `out = out[out.columns[~(out == 0).all()]]`: drop the all-zero columns. -/
def pruneZeros (t : Table) : Table := selectCols t (keptLabels t)

/-- A character class `\w` match. -/
def isWordChar (c : Char) : Bool := c.isAlphanum || c == '_'

/-- `re.search("geo\w+", s)`: the string contains "geo" followed by at least
one word character. -/
def hasGeoW : List Char → Bool
  | 'g' :: 'e' :: 'o' :: c :: rest => isWordChar c || hasGeoW ('e' :: 'o' :: c :: rest)
  | _ :: rest => hasGeoW rest
  | [] => false

def matchesGeoRegex (s : String) : Bool := hasGeoW s.data

/-- `df.filter(regex="geo\w+", axis=1)`. -/
def filterColsRegexGeo (t : Table) : Table :=
  selectCols t (t.cols.filter matchesGeoRegex)

/-- `out[name] = out[[c1, c2]].sum(axis=1)`: per-row sum of two columns with
`skipna=True` (non-numeric cells count as zero). -/
def sumTwoCols (t : Table) (name c1 c2 : String) : Table :=
  setColF t name (fun r =>
    Val.int ((lookupVal t.cols r c1).toIntOr0 + (lookupVal t.cols r c2).toIntOr0))

/-- `.str.slice(0, 11)`: the first eleven characters of a string cell; the
`.str` accessor yields NaN on non-string cells. -/
def Val.strSlice11 : Val → Val
  | .str s => .str (s.take 11)
  | _ => .nan

/-- Is the first list a prefix of the second? -/
def strHasPrefixChars : List Char → List Char → Bool
  | [], _ => true
  | _ :: _, [] => false
  | p :: ps, c :: cs => if p = c then strHasPrefixChars ps cs else false

/-- Python's `str.startswith`. -/
def strStartsWith (s p : String) : Bool := strHasPrefixChars p.data s.data

/-! ### Pipeline constants (`LongformLODES` / `SummaryLODES` class data) -/

def URL : String := "https://lehd.ces.census.gov/data/lodes/LODES7/pa"

/-- `YEARS = list(range(2002, 2018))`. -/
def YEARS : List Int := (List.range 16).map (fun i => 2002 + (i : Int))

/-- The `job_type` → internal-code dictionary shared by both pipelines. -/
def allowed_job_types : List (String × String) :=
  [("all", "JT00"), ("primary", "JT01"), ("private", "JT02"), ("private_primary", "JT03")]

def jobTypeKeys : List String := allowed_job_types.map (fun p => p.1)

/-- The `kind` → anchor-geocode-column dictionary of the OD summary pipeline. -/
def allowedKinds : List (String × String) :=
  [("work", "w_geocode"), ("home", "h_geocode")]

/-- The ordered `RAW_FIELDS` catalog of `phlcensus/economic/lodes_long.py`. -/
def RAW_FIELDS : List (String × String) :=
  [("C000", "total_jobs"),
   ("CA01", "age_29_or_younger"),
   ("CA02", "age_30_to_54"),
   ("CA03", "age_55_or_older"),
   ("CE01", "wages_1250_or_less"),
   ("CE02", "wages_1251_to_3333"),
   ("CE03", "wages_3334_or_more"),
   ("CNS01", "agriculture_etc"),
   ("CNS02", "mining_etc"),
   ("CNS03", "utilities"),
   ("CNS04", "construction"),
   ("CNS05", "manufacturing"),
   ("CNS06", "wholesale_trade"),
   ("CNS07", "retail_trade"),
   ("CNS08", "transportation_warehousing"),
   ("CNS09", "information"),
   ("CNS10", "finance_insurance"),
   ("CNS11", "real_estate"),
   ("CNS12", "technical_services"),
   ("CNS13", "management"),
   ("CNS14", "waste_management"),
   ("CNS15", "educational_services"),
   ("CNS16", "healthcare_social_services"),
   ("CNS17", "arts_entertainment_recreation"),
   ("CNS18", "accommodation_food_services"),
   ("CNS19", "other_services"),
   ("CNS20", "public_administration"),
   ("CR01", "white_alone"),
   ("CR02", "black_alone"),
   ("CR03", "american_indian_and_alaska_native"),
   ("CR04", "asian_alone"),
   ("CR05", "native_hawaiian_and_pacific_islander"),
   ("CR07", "two_or_more_races"),
   ("CT01", "not_latino"),
   ("CT02", "latino_alone"),
   ("CD01", "less_than_high_school"),
   ("CD02", "high_school_graduate"),
   ("CD03", "some_college"),
   ("CD04", "bachelors_or_higher"),
   ("CS01", "total_jobs_male"),
   ("CS02", "total_jobs_female"),
   ("CFA01", "firm_age_0_to_1"),
   ("CFA02", "firm_age_2_to_3"),
   ("CFA03", "firm_age_4_to_5"),
   ("CFA04", "firm_age_6_to_10"),
   ("CFA05", "firm_age_11_or_more"),
   ("CFS01", "firm_size_0_to_19"),
   ("CFS02", "firm_size_20_to_49"),
   ("CFS03", "firm_size_50_to_249"),
   ("CFS04", "firm_size_250_to_499"),
   ("CFS05", "firm_size_500_or_more")]

/-- The catalog's raw field codes, in declaration order. -/
def rawFieldCodes : List String := RAW_FIELDS.map (fun p => p.1)

/-- `[col for col in data.columns if col in cls.RAW_FIELDS]`: the group-by
projection of the longform pipeline. -/
def selectedRawCols (columns : List String) : List String :=
  columns.filter (fun c => rawFieldCodes.contains c)

/-- The same selection as the spec words it: "the subset of catalog codes
that are present, order preserved" with the catalog's declaration order
determining the output order.  Kept separate so it can be compared with the
source's `selectedRawCols`. -/
def selectedRawColsSpecOrder (columns : List String) : List String :=
  rawFieldCodes.filter (fun c => columns.contains c)

/-- Python rendering of a list of strings, as an f-string interpolates it. -/
def pyStrList (xs : List String) : String :=
  "[" ++ String.intercalate ", " (xs.map (fun s => "\x27" ++ s ++ "\x27")) ++ "]"

def yearsMsg : String := "Valid years are: " ++ toString YEARS

def keyMsgLong : String := "valid column names are \x27wac\x27 or \x27rac\x27"

def jobTypesMsgLong : String := "Allowed job types: " ++ pyStrList jobTypeKeys

def jobTypesMsgSummary : String :=
  "Allowed values for \x27job_type\x27: " ++ pyStrList jobTypeKeys

def kindsMsg : String :=
  "Allowed values for \x27kind\x27: " ++ pyStrList (allowedKinds.map (fun p => p.1))

def levelsAllowed : List String := ["tract", "nta", "puma"]

def levelsMsg : String := "Allowed values for \x27level\x27: " ++ pyStrList levelsAllowed

def lodesFile (key jt : String) (year : Int) : String :=
  URL ++ "/" ++ key ++ "/pa_" ++ key ++ "_S000_" ++ jt ++ "_" ++ toString year ++ ".csv.gz"

def odMainFile (jt : String) (year : Int) : String :=
  URL ++ "/od/pa_od_main_" ++ jt ++ "_" ++ toString year ++ ".csv.gz"

def odAuxFile (jt : String) (year : Int) : String :=
  URL ++ "/od/pa_od_aux_" ++ jt ++ "_" ++ toString year ++ ".csv.gz"

def xwalkFile : String := URL ++ "/pa_xwalk.csv.gz"

/-! ### `LongformLODES.download`

Translated from `phlcensus/economic/lodes_long.py`.  The tract reference
collaborator is the `tracts` argument, network reads go through the `files`
oracle, and the second component of the result is the list of file names
requested, in request order. -/

def downloadLong (key : String) (year : Int) (jobType : String)
    (files : String → Table) (tracts : Table) : Except String Table × List String :=
  if year ∉ YEARS then (.error yearsMsg, [])
  else if key ∉ ["wac", "rac"] then (.error keyMsgLong, [])
  else
    match List.lookup jobType allowed_job_types with
    | none => (.error jobTypesMsgLong, [])
    | some jt =>
      let fname := lodesFile key jt year
      let data1 := renameCols (files fname) [("h_geocode", "geo_id"), ("w_geocode", "geo_id")]
      let data := mapColVals data1 "geo_id" (fun v => v.astypeStr.strSlice11)
      let tractsS := astypeStrCol tracts "geo_id"
      let cols := selectedRawCols data.cols
      let N := groupbySum (selectCols data ("geo_id" :: cols)) ["geo_id"] cols
      let out := renameCols (mergeOn tractsS N "geo_id") RAW_FIELDS
      (.ok (resetIndexDrop (sortValuesBy (pruneZeros out) "geo_id")), [fname])

/-! ### `SummaryLODES.download`

Translated from `phlcensus/economic/lodes/summary.py`, split into its named
stages so the theorems can speak about the intermediate frames. -/

/-- The geo_id column of the (stringified) tract reference table, i.e. the
series `tracts["geo_id"]` that the `isin` classification tests against. -/
def tractGeoIds (tractsS : Table) : List Val :=
  tractsS.rows.map (fun tr => lookupVal tractsS.cols tr "geo_id")

/-- Loading and concatenating the OD files, stringifying the geocodes, and
classifying every record: `is_resident` is true exactly when the first eleven
characters of `h_geocode` appear among the tract reference geo_ids. -/
def summaryData (kindCol jt : String) (year : Int) (files : String → Table)
    (tractsS : Table) : Table :=
  let main := files (odMainFile jt year)
  let d0 := if kindCol = "w_geocode" then concatT main (files (odAuxFile jt year)) else main
  let d1 := astypeStrCol (astypeStrCol d0 "h_geocode") "w_geocode"
  setColF d1 "is_resident" (fun r =>
    if (lookupVal d1.cols r "h_geocode").strSlice11 ∈ tractGeoIds tractsS
    then Val.int 1 else Val.int 0)

/-- Group by block and resident class, attach the crosswalk, regroup by tract
and resident class, and join against the tract reference (inner join on
`geo_id = trct`). -/
def summaryJoined (kindCol : String) (d xwalkS tractsS : Table)
    (scols : List String) : Table :=
  let N0 := groupbySum (selectCols d ([kindCol, "is_resident"] ++ scols))
      [kindCol, "is_resident"] scols
  let N := mapColVals (mergeLeftKeys N0 xwalkS kindCol "tabblk2010") "trct" Val.astypeStr
  let T2 := groupbySum (selectCols N (["trct", "is_resident"] ++ scols))
      ["trct", "is_resident"] scols
  mergeKeys tractsS T2 "geo_id" "trct"

/-- The raw-code → tag-prefixed-name rename dictionary of the pivot step. -/
def summaryRenameMap (tag : String) : List (String × String) :=
  [("S000", tag ++ "_total"),
   ("SA01", tag ++ "_29_or_younger"),
   ("SA02", tag ++ "_30_to_54"),
   ("SA03", tag ++ "_55_or_older"),
   ("SE01", tag ++ "_1250_or_less"),
   ("SE02", tag ++ "_1251_to_3333"),
   ("SE03", tag ++ "_3334_or_more"),
   ("SI01", tag ++ "_goods_producing"),
   ("SI02", tag ++ "_trade_transpo_utilities"),
   ("SI03", tag ++ "_all_other_industries")]

/-- The demographic groups whose combined totals are computed for `work`. -/
def summaryGroups : List String :=
  ["29_or_younger", "30_to_54", "55_or_older", "1250_or_less", "1251_to_3333",
   "3334_or_more", "goods_producing", "trade_transpo_utilities", "all_other_industries"]

/-- The tag-prefixed column block merged in for one resident class. -/
def tagBlock (tag : String) (flag : Int) (data2 : Table) (scols : List String) : Table :=
  renameCols
    (selectCols
      (filterRowsT data2 (fun r => lookupVal data2.cols r "is_resident" == Val.int flag))
      ("geo_id" :: scols))
    (summaryRenameMap tag)

/-- The per-group combined-totals loop of the `work` kind. -/
def addGroupTotals (t : Table) (gs : List String) : Table :=
  gs.foldl
    (fun acc g => sumTwoCols acc ("total_" ++ g) ("resident_" ++ g) ("nonresident_" ++ g))
    t

/-- The pivot: one row per tract, resident columns merged in, and for the
`work` kind also nonresident columns and the combined totals. -/
def summaryOut (kindCol : String) (data2 : Table) (scols : List String) : Table :=
  let out0 := resetIndexDrop (dropDupBy (filterColsRegexGeo data2) "geo_id")
  let out1 := mergeOn out0 (tagBlock "resident" 1 data2 scols) "geo_id"
  if kindCol = "w_geocode" then
    let out2 := mergeOn out1 (tagBlock "nonresident" 0 data2 scols) "geo_id"
    addGroupTotals (sumTwoCols out2 "total" "resident_total" "nonresident_total")
      summaryGroups
  else out1

def downloadSummary (year : Int) (kind jobType : String)
    (files : String → Table) (tracts : Table) : Except String Table × List String :=
  if year ∉ YEARS then (.error yearsMsg, [])
  else
    match List.lookup jobType allowed_job_types with
    | none => (.error jobTypesMsgSummary, [])
    | some jt =>
      match List.lookup kind allowedKinds with
      | none => (.error kindsMsg, [])
      | some kindCol =>
        let xwalkS := astypeStrCol (files xwalkFile) "tabblk2010"
        let tractsS := astypeStrCol tracts "geo_id"
        let d := summaryData kindCol jt year files tractsS
        let scols := d.cols.filter (fun c => strStartsWith c "S")
        let data2 := summaryJoined kindCol d xwalkS tractsS scols
        (.ok (resetIndexDrop (sortValuesBy (summaryOut kindCol data2 scols) "geo_id")),
         xwalkFile :: odMainFile jt year ::
           (if kindCol = "w_geocode" then [odAuxFile jt year] else []))

/-- The grouped, tract-joined intermediate frame `data2` of the `work` kind
of `SummaryLODES.download`, as a function of the resolved job-type code. -/
def workData2 (jt : String) (year : Int) (files : String → Table)
    (tracts : Table) : Table :=
  let tractsS := astypeStrCol tracts "geo_id"
  let d := summaryData "w_geocode" jt year files tractsS
  summaryJoined "w_geocode" d (astypeStrCol (files xwalkFile) "tabblk2010") tractsS
    (d.cols.filter (fun c => strStartsWith c "S"))

/-! ### The `get` orchestrators and the aggregation collaborators -/

/-- `df.drop(labels=[name], axis=1)`. -/
def dropColT (t : Table) (name : String) : Table :=
  selectCols t (t.cols.filter (fun c => c ≠ name))

/-- Modelled from the spec: `analysis.aggregate_count_data` is code of this
repository that is not under `src/`.  Per §6, the aggregation collaborator
"exposes aggregate(table, group_key, id_vars) -> table summing all numeric
columns per group"; groups come out keyed by the group key (ascending, the
pandas group order) with a fresh dense index. -/
def aggNumericCols (t : Table) (groupKey : String) (idVars : List String) : List String :=
  t.cols.filter (fun c =>
    c ≠ groupKey && !idVars.contains c &&
      t.rows.all (fun r => match lookupVal t.cols r c with | .int _ => true | _ => false))

/-- Modelled from the spec: the aggregation collaborator groups by the group
key together with the carried id columns and sums the numeric columns. -/
def aggregate_count_data (t : Table) (groupKey : String) (idVars : List String) : Table :=
  groupbySum t (groupKey :: idVars) (aggNumericCols t groupKey idVars)

/-- `LongformLODES.get`, with the external fetch-or-cache layer abstracted
into the `tractData` argument and the crosswalk collaborator results passed
as tables. -/
def getLong (level : String) (tractData xwalkNta xwalkPuma : Table) :
    Except String Table :=
  if level ∉ levelsAllowed then .error levelsMsg
  else if level = "tract" then .ok tractData
  else
    let xwalk := if level = "nta" then xwalkNta else xwalkPuma
    let merged := mergeLeftKeys xwalk (dropColT tractData "geometry") "geo_id_tract" "geo_id"
    let agg := aggregate_count_data merged ("geo_id_" ++ level) ["geo_name_" ++ level]
    .ok (renameCols agg
      [("geo_id_" ++ level, "geo_id"), ("geo_name_" ++ level, "geo_name")])

/-- Modelled from the spec: `aggregate.aggregate_tracts` is code of this
repository that is not under `src/`.  Per §4.4 it merges the tract table with
the tract-to-level crosswalk, delegates to the aggregation collaborator, and
renames the generic output columns back to `geo_id`/`geo_name`. -/
def aggregate_tracts (t : Table) (level : String) (xwalk : Table) : Table :=
  let merged := mergeLeftKeys xwalk (dropColT t "geometry") "geo_id_tract" "geo_id"
  let agg := aggregate_count_data merged ("geo_id_" ++ level) ["geo_name_" ++ level]
  renameCols agg [("geo_id_" ++ level, "geo_id"), ("geo_name_" ++ level, "geo_name")]

/-- `SummaryLODES.get`, abstracted like `getLong`. -/
def getSummary (level : String) (tractData xwalkNta xwalkPuma : Table) :
    Except String Table :=
  if level ∉ levelsAllowed then .error levelsMsg
  else if level = "tract" then .ok tractData
  else .ok (aggregate_tracts tractData level
    (if level = "nta" then xwalkNta else xwalkPuma))

/-! ### Output-shape predicates -/

/-- The frame is in ascending order of its `geo_id` column. -/
def sortedByGeoId (t : Table) : Prop :=
  List.Sorted (fun a b => valLEb a b = true)
    (t.rows.map (fun r => lookupVal t.cols r "geo_id"))

/-- The frame carries a dense zero-based row index. -/
def denseIndex (t : Table) : Prop := t.index = List.range t.rows.length

/-! ### Concrete frames used by the witnesses -/

/-- The empty data frame (used as an inert oracle value in witnesses). -/
def emptyTable : Table := { cols := [], rows := [], index := [] }

/-- A small frame with one all-zero column, for the C6 witness. -/
def c6Table : Table :=
  { cols := ["geo_id", "a", "b"],
    rows := [[.str "x", .int 0, .int 1], [.str "y", .int 0, .int 2]],
    index := [0, 1] }

/-- A two-tract reference table. -/
def wTracts : Table :=
  { cols := ["geo_id", "geometry"],
    rows := [[.str "42101000100", .str "poly1"], [.str "42101000200", .str "poly2"]],
    index := [0, 1] }

/-- A three-row WAC file over two tracts, with one catalog column (`C000`,
`CA01`) pair and one non-catalog column (`createdate`). -/
def wWac : Table :=
  { cols := ["w_geocode", "C000", "CA01", "createdate"],
    rows := [[.int 421010001001001, .int 3, .int 1, .int 20190826],
             [.int 421010001001002, .int 4, .int 0, .int 20190826],
             [.int 421010002002001, .int 5, .int 0, .int 20190826]],
    index := [0, 1, 2] }

/-- The file oracle for the longform witnesses. -/
def wFilesLong : String → Table := fun n =>
  if n = lodesFile "wac" "JT00" 2002 then wWac else emptyTable

/-- A block → tract crosswalk covering both tracts. -/
def wXwalk : Table :=
  { cols := ["tabblk2010", "trct"],
    rows := [[.int 421010001001001, .int 42101000100],
             [.int 421010001001002, .int 42101000100],
             [.int 421010002002001, .int 42101000200]],
    index := [0, 1, 2] }

/-- An OD main file: two jobs anchored at tract ...100 whose workers live at
tract ...200 (residents). -/
def wOdMain : Table :=
  { cols := ["w_geocode", "h_geocode", "S000", "SA01", "createdate"],
    rows := [[.int 421010001001001, .int 421010002002001, .int 3, .int 1, .int 20190826],
             [.int 421010001001002, .int 421010002002001, .int 2, .int 0, .int 20190826]],
    index := [0, 1] }

/-- An OD auxiliary file: one job anchored at tract ...100 whose worker lives
out of state (a nonresident). -/
def wOdAux : Table :=
  { cols := ["w_geocode", "h_geocode", "S000", "SA01", "createdate"],
    rows := [[.int 421010001001001, .int 360610031001001, .int 4, .int 2, .int 20190826]],
    index := [0] }

/-- The file oracle for the OD summary witnesses. -/
def wFilesSummary : String → Table := fun n =>
  if n = xwalkFile then wXwalk
  else if n = odMainFile "JT00" 2002 then wOdMain
  else if n = odAuxFile "JT00" 2002 then wOdAux
  else emptyTable

/-- A tract → NTA crosswalk for the `get` witnesses. -/
def wXwalkNta : Table :=
  { cols := ["geo_id_tract", "geo_id_nta", "geo_name_nta"],
    rows := [[.str "42101000100", .str "N1", .str "NtaOne"],
             [.str "42101000200", .str "N1", .str "NtaOne"]],
    index := [0, 1] }

/-- A small tract-level table (already sorted, dense index) for the `get`
witnesses. -/
def wTractData : Table :=
  { cols := ["geo_id", "geometry", "total_jobs"],
    rows := [[.str "42101000100", .str "poly1", .int 10],
             [.str "42101000200", .str "poly2", .int 15]],
    index := [0, 1] }

/-- The payload of a successful download (inert fallback on errors). -/
def okTableOf (e : Except String Table) : Table :=
  match e with
  | .ok t => t
  | .error _ => emptyTable

def wOutLong : Table := okTableOf (downloadLong "wac" 2002 "all" wFilesLong wTracts).1

def wOutSummaryWork : Table :=
  okTableOf (downloadSummary 2002 "work" "all" wFilesSummary wTracts).1

def wOutSummaryHome : Table :=
  okTableOf (downloadSummary 2002 "home" "all" wFilesSummary wTracts).1

/-- The single row of the work-kind OD summary witness output: tract
42101000100 with resident S000 = 5, SA01 = 1 and nonresident S000 = 4,
SA01 = 2, hence total = 9 and total_29_or_younger = 3. -/
def wRowSummary : List Val :=
  [.str "42101000100", .str "poly1", .int 5, .int 1, .int 4, .int 2, .int 9,
   .int 3, .int 0, .int 0, .int 0, .int 0, .int 0, .int 0, .int 0, .int 0]

def wOutGetNta : Table := okTableOf (getLong "nta" wTractData wXwalkNta wXwalkNta)

def wOutGetSummaryNta : Table :=
  okTableOf (getSummary "nta" wTractData wXwalkNta wXwalkNta)

/-! ### Theorems.  Basic facts about cells and lookup -/

theorem charListLE_cons (a b : Char) (as bs : List Char) :
    charListLE (a :: as) (b :: bs) =
      if a.toNat < b.toNat then true
      else if b.toNat < a.toNat then false
      else charListLE as bs := rfl

theorem charListLE_refl (l : List Char) : charListLE l l = true := by
  induction l with
  | nil => rfl
  | cons a as ih => rw [charListLE_cons, if_neg (by omega), if_neg (by omega)]; exact ih

theorem charListLE_total (a b : List Char) :
    charListLE a b = true ∨ charListLE b a = true := by
  induction a generalizing b with
  | nil => left; rfl
  | cons x xs ih =>
    cases b with
    | nil => right; rfl
    | cons y ys =>
      rcases Nat.lt_trichotomy x.toNat y.toNat with h | h | h
      · left; rw [charListLE_cons, if_pos h]
      · rcases ih ys with h' | h'
        · left
          rw [charListLE_cons, if_neg (by omega), if_neg (by omega)]; exact h'
        · right
          rw [charListLE_cons, if_neg (by omega), if_neg (by omega)]; exact h'
      · right; rw [charListLE_cons, if_pos h]

theorem charListLE_trans {a b c : List Char} (h1 : charListLE a b = true)
    (h2 : charListLE b c = true) : charListLE a c = true := by
  induction a generalizing b c with
  | nil => rfl
  | cons x xs ih =>
    cases b with
    | nil => simp [charListLE] at h1
    | cons y ys =>
      cases c with
      | nil => simp [charListLE] at h2
      | cons z zs =>
        rw [charListLE_cons] at h1 h2 ⊢
        by_cases hxy : x.toNat < y.toNat
        · rw [if_pos hxy] at h1
          by_cases hyz : y.toNat < z.toNat
          · rw [if_pos (by omega : x.toNat < z.toNat)]
          · by_cases hzy : z.toNat < y.toNat
            · rw [if_neg hyz, if_pos hzy] at h2; exact Bool.noConfusion h2
            · rw [if_pos (by omega : x.toNat < z.toNat)]
        · by_cases hyx : y.toNat < x.toNat
          · rw [if_neg hxy, if_pos hyx] at h1; exact Bool.noConfusion h1
          · rw [if_neg hxy, if_neg hyx] at h1
            by_cases hyz : y.toNat < z.toNat
            · rw [if_pos (by omega : x.toNat < z.toNat)]
            · by_cases hzy : z.toNat < y.toNat
              · rw [if_neg hyz, if_pos hzy] at h2; exact Bool.noConfusion h2
              · rw [if_neg hyz, if_neg hzy] at h2
                rw [if_neg (by omega : ¬x.toNat < z.toNat),
                    if_neg (by omega : ¬z.toNat < x.toNat)]
                exact ih h1 h2

theorem valLEb_refl (a : Val) : valLEb a a = true := by
  cases a
  · exact charListLE_refl _
  · simp [valLEb]
  · rfl

theorem valLEb_total (a b : Val) : valLEb a b = true ∨ valLEb b a = true := by
  cases a <;> cases b <;>
    first
      | (left; rfl)
      | (right; rfl)
      | exact charListLE_total _ _
      | (simp only [valLEb, decide_eq_true_eq]; exact le_total _ _)

theorem valLEb_trans {a b c : Val} (h1 : valLEb a b = true) (h2 : valLEb b c = true) :
    valLEb a c = true := by
  cases a <;> cases b <;> cases c <;>
    first
      | rfl
      | exact charListLE_trans h1 h2
      | (simp only [valLEb, decide_eq_true_eq] at h1 h2 ⊢; exact le_trans h1 h2)
      | exact Bool.noConfusion h1
      | exact Bool.noConfusion h2

theorem valLEb_false {a b : Val} (h : valLEb a b = false) : valLEb b a = true := by
  rcases valLEb_total a b with h' | h'
  · rw [h] at h'; cases h'
  · exact h'

theorem lookupVal_nil_cols (row : List Val) (name : String) :
    lookupVal [] row name = Val.nan := by
  cases row <;> rfl

theorem lookupVal_nil_row (cols : List String) (name : String) :
    lookupVal cols [] name = Val.nan := by
  cases cols <;> rfl

theorem lookupVal_cons (c : String) (cs : List String) (v : Val) (vs : List Val)
    (name : String) :
    lookupVal (c :: cs) (v :: vs) name = if c = name then v else lookupVal cs vs name := rfl

/-- Looking a label up in a row that tabulates a function over the labels. -/
theorem lookupVal_map_self (cols : List String) (g : String → Val) (name : String) :
    lookupVal cols (cols.map g) name = if name ∈ cols then g name else Val.nan := by
  induction cols with
  | nil => simp [lookupVal_nil_cols]
  | cons c cs ih =>
    simp only [List.map_cons, lookupVal_cons, List.mem_cons]
    by_cases hc : c = name
    · subst hc; simp
    · have hc' : ¬(name = c) := fun h => hc h.symm
      simp [hc, hc', ih]

/-- Lookup in the concatenation of two aligned (cols, row) blocks: a label
present in the left block is resolved there. -/
theorem lookupVal_append_left (cols₁ cols₂ : List String) (r₁ r₂ : List Val)
    (name : String) (hlen : r₁.length = cols₁.length) (hmem : name ∈ cols₁) :
    lookupVal (cols₁ ++ cols₂) (r₁ ++ r₂) name = lookupVal cols₁ r₁ name := by
  induction cols₁ generalizing r₁ with
  | nil => cases hmem
  | cons c cs ih =>
    cases r₁ with
    | nil => simp at hlen
    | cons v vs =>
      simp only [List.cons_append, lookupVal_cons]
      by_cases hc : c = name
      · simp [hc]
      · simp only [hc, if_false]
        rcases List.mem_cons.mp hmem with h | h
        · exact absurd h.symm hc
        · exact ih vs (by simpa using hlen) h

/-- Lookup in the concatenation when the label is absent from the left block. -/
theorem lookupVal_append_right (cols₁ cols₂ : List String) (r₁ r₂ : List Val)
    (name : String) (hlen : r₁.length = cols₁.length) (hmem : name ∉ cols₁) :
    lookupVal (cols₁ ++ cols₂) (r₁ ++ r₂) name = lookupVal cols₂ r₂ name := by
  induction cols₁ generalizing r₁ with
  | nil =>
    cases r₁ with
    | nil => simp
    | cons v vs => simp at hlen
  | cons c cs ih =>
    cases r₁ with
    | nil => simp at hlen
    | cons v vs =>
      simp only [List.cons_append, lookupVal_cons]
      have hc : c ≠ name := fun h => hmem (List.mem_cons.mpr (.inl h.symm))
      simp only [hc, if_false]
      exact ih vs (by simpa using hlen) (fun h => hmem (List.mem_cons.mpr (.inr h)))

/-! ### Helper facts about validation -/

theorem lookup_jobTypes_none {j : String} (h : j ∉ jobTypeKeys) :
    List.lookup j allowed_job_types = none := by
  have e1 : (j == "all") = false := beq_eq_false_iff_ne.mpr (fun e => h (by rw [e]; decide))
  have e2 : (j == "primary") = false :=
    beq_eq_false_iff_ne.mpr (fun e => h (by rw [e]; decide))
  have e3 : (j == "private") = false :=
    beq_eq_false_iff_ne.mpr (fun e => h (by rw [e]; decide))
  have e4 : (j == "private_primary") = false :=
    beq_eq_false_iff_ne.mpr (fun e => h (by rw [e]; decide))
  simp [allowed_job_types, List.lookup, e1, e2, e3, e4]

theorem lookup_kinds_none {k : String} (h : k ∉ ["work", "home"]) :
    List.lookup k allowedKinds = none := by
  have e1 : (k == "work") = false := beq_eq_false_iff_ne.mpr (fun e => h (by rw [e]; decide))
  have e2 : (k == "home") = false := beq_eq_false_iff_ne.mpr (fun e => h (by rw [e]; decide))
  simp [allowedKinds, List.lookup, e1, e2]

/-- C2: with an unsupported `year`, `job_type`, `key` or `kind`, both
`download` entry points return the validation error that enumerates the
allowed set, and the fetch log is empty — no file is requested and no
(partial) table is produced.  The cases mirror the source's check order:
`year` first, then `key`/`job_type`/`kind`. -/
theorem download_validation_precedes_io
    (key : String) (year : Int) (jobType kind : String)
    (files : String → Table) (tracts : Table) :
    (year ∉ YEARS →
      downloadLong key year jobType files tracts = (.error yearsMsg, []) ∧
      downloadSummary year kind jobType files tracts = (.error yearsMsg, [])) ∧
    (year ∈ YEARS → key ∉ ["wac", "rac"] →
      downloadLong key year jobType files tracts = (.error keyMsgLong, [])) ∧
    (year ∈ YEARS → key ∈ ["wac", "rac"] → jobType ∉ jobTypeKeys →
      downloadLong key year jobType files tracts = (.error jobTypesMsgLong, [])) ∧
    (year ∈ YEARS → jobType ∉ jobTypeKeys →
      downloadSummary year kind jobType files tracts = (.error jobTypesMsgSummary, [])) ∧
    (year ∈ YEARS → jobType ∈ jobTypeKeys → kind ∉ ["work", "home"] →
      downloadSummary year kind jobType files tracts = (.error kindsMsg, [])) := by
  refine ⟨fun hy => ?_, fun hy hk => ?_, fun hy hk hj => ?_, fun hy hj => ?_,
    fun hy hj hk => ?_⟩
  · exact ⟨by simp [downloadLong, hy], by simp [downloadSummary, hy]⟩
  · simp [downloadLong, hy, hk]
  · simp [downloadLong, hy, hk, lookup_jobTypes_none hj]
  · simp [downloadSummary, hy, lookup_jobTypes_none hj]
  · have hj' : ∃ jt, List.lookup jobType allowed_job_types = some jt := by
      fin_cases hj <;> exact ⟨_, rfl⟩
    obtain ⟨jt, hjt⟩ := hj'
    simp [downloadSummary, hy, hjt, lookup_kinds_none hk]

/-- C2 witness: the spec's own example, `job_type="seasonal"`, on a valid
year: the longform pipeline raises the job-type validation error with an
empty fetch log. -/
theorem download_validation_witness :
    ((2002 : Int) ∈ YEARS ∧ "wac" ∈ ["wac", "rac"] ∧ "seasonal" ∉ jobTypeKeys) ∧
    downloadLong "wac" 2002 "seasonal" (fun _ => emptyTable) emptyTable =
      (.error jobTypesMsgLong, []) :=
  ⟨⟨by decide, by decide, by decide⟩,
    (download_validation_precedes_io "wac" 2002 "seasonal" "work"
      (fun _ => emptyTable) emptyTable).2.2.1 (by decide) (by decide) (by decide)⟩

/-- C4: the `job_type` → internal-code dictionary is total on the four job
types, maps them to JT00..JT03 as stated, and is injective (no two job types
share a code). -/
theorem jobTypeMapping_total_injective :
    (List.lookup "all" allowed_job_types = some "JT00" ∧
     List.lookup "primary" allowed_job_types = some "JT01" ∧
     List.lookup "private" allowed_job_types = some "JT02" ∧
     List.lookup "private_primary" allowed_job_types = some "JT03") ∧
    (∀ a ∈ jobTypeKeys, ∀ b ∈ jobTypeKeys,
      List.lookup a allowed_job_types = List.lookup b allowed_job_types → a = b) := by
  decide

/-- C5 counterexample: for a source file whose columns list `CA01` before
`C000`, the projection the code computes follows the file's column order,
not the catalog's declaration order (which would put `C000` first). -/
theorem selectedRawCols_not_catalog_order :
    selectedRawCols ["geo_id", "CA01", "C000"] = ["CA01", "C000"] ∧
    selectedRawColsSpecOrder ["geo_id", "CA01", "C000"] = ["C000", "CA01"] ∧
    selectedRawCols ["geo_id", "CA01", "C000"] ≠
      selectedRawColsSpecOrder ["geo_id", "CA01", "C000"] := by
  decide

/-- C5 (amended): the group-by projection selects exactly the columns whose
raw code appears in the catalog — unknown columns are silently ignored — and
the selected count columns keep the source file's column order (the
projection is a sublist of the file's column list), not the catalog's. -/
theorem selectedRawCols_membership_and_order (columns : List String) :
    List.Sublist (selectedRawCols columns) columns ∧
    (∀ c, c ∈ selectedRawCols columns ↔ c ∈ columns ∧ c ∈ rawFieldCodes) := by
  constructor
  · exact List.filter_sublist _
  · intro c
    simp [selectedRawCols, List.mem_filter]

/-! ### Zero-column pruning: supporting lemmas -/

theorem Table.eq_of_fields {a b : Table} (h1 : a.cols = b.cols) (h2 : a.rows = b.rows)
    (h3 : a.index = b.index) : a = b := by
  cases a; cases b; simp_all

theorem getD_map_of_lt {α β : Type} (f : α → β) (l : List α) (p : Nat)
    (h : p < l.length) (d : β) (d' : α) : (l.map f).getD p d = f (l.getD p d') := by
  induction l generalizing p with
  | nil => simp at h
  | cons x xs ih =>
    cases p with
    | zero => rfl
    | succ q => exact ih q (by simpa using h)

theorem getD_mem_of_lt {α : Type} (l : List α) (p : Nat) (h : p < l.length) (d : α) :
    l.getD p d ∈ l := by
  induction l generalizing p with
  | nil => simp at h
  | cons x xs ih =>
    cases p with
    | zero => exact List.mem_cons_self _ _
    | succ q => exact List.mem_cons_of_mem _ (ih q (by simpa using h))

theorem maskList_sublist {α : Type} (m : List Bool) (l : List α) :
    List.Sublist (maskList m l) l := by
  induction m generalizing l with
  | nil => cases l <;> simp [maskList]
  | cons b ms ih =>
    cases l with
    | nil => simp [maskList]
    | cons x xs =>
      cases b
      · exact (ih xs).cons x
      · exact (ih xs).cons₂ x

theorem maskList_all_true {α : Type} (m : List Bool) (l : List α)
    (hlen : m.length = l.length) (h : ∀ j, j < m.length → m.getD j false = true) :
    maskList m l = l := by
  induction m generalizing l with
  | nil => cases l with | nil => rfl | cons x xs => simp at hlen
  | cons b ms ih =>
    cases l with
    | nil => simp at hlen
    | cons x xs =>
      have hb : b = true := h 0 (by simp)
      subst hb
      simp only [maskList]
      rw [ih xs (by simpa using hlen) (fun j hj => h (j + 1) (by simpa using hj))]

theorem keepMaskAux_length (rows : List (List Val)) (cs : List String) (i : Nat) :
    (keepMaskAux rows i cs).length = cs.length := by
  induction cs generalizing i with
  | nil => rfl
  | cons c cs ih => simp [keepMaskAux, ih]

theorem keepMaskAux_getD (rows : List (List Val)) (cs : List String) (i p : Nat)
    (h : p < cs.length) :
    (keepMaskAux rows i cs).getD p false = !colAllZero rows (i + p) := by
  induction cs generalizing i p with
  | nil => simp at h
  | cons c cs ih =>
    cases p with
    | zero => simp [keepMaskAux]
    | succ q =>
      have h' : q < cs.length := by simpa using h
      have e : i + (q + 1) = (i + 1) + q := by omega
      rw [show keepMaskAux rows i (c :: cs) =
            (!colAllZero rows i) :: keepMaskAux rows (i + 1) cs from rfl,
          List.getD_cons_succ, ih (i + 1) q h', e]

theorem mem_maskList_of_nodup {l : List String} (hnd : l.Nodup) (m : List Bool)
    (p : Nat) (hp : p < l.length) (hm : m.length = l.length) :
    (l.getD p "" ∈ maskList m l ↔ m.getD p false = true) := by
  induction l generalizing m p with
  | nil => simp at hp
  | cons x xs ih =>
    cases m with
    | nil => simp at hm
    | cons b ms =>
      have hx : x ∉ xs := (List.nodup_cons.mp hnd).1
      have hnd' : xs.Nodup := (List.nodup_cons.mp hnd).2
      cases p with
      | zero =>
        cases b
        · simp only [maskList, List.getD_cons_zero]
          constructor
          · intro hmem
            exact absurd ((maskList_sublist ms xs).mem hmem) hx
          · intro h; cases h
        · simp [maskList]
      | succ q =>
        have hq : q < xs.length := by simpa using hp
        have hmem : xs.getD q "" ∈ xs := getD_mem_of_lt xs q hq ""
        have hne : xs.getD q "" ≠ x := fun e => hx (e ▸ hmem)
        cases b
        · simpa [maskList] using ih hnd' ms q hq (by simpa using hm)
        · simp only [maskList, List.getD_cons_succ, List.mem_cons]
          rw [ih hnd' ms q hq (by simpa using hm)]
          exact or_iff_right hne

theorem lookupVal_getD_of_nodup (cols : List String) (row : List Val)
    (hnd : cols.Nodup) (p : Nat) (hp : p < cols.length) :
    lookupVal cols row (cols.getD p "") = row.getD p Val.nan := by
  induction cols generalizing row p with
  | nil => simp at hp
  | cons c cs ih =>
    have hc : c ∉ cs := (List.nodup_cons.mp hnd).1
    have hnd' : cs.Nodup := (List.nodup_cons.mp hnd).2
    cases row with
    | nil =>
      rw [lookupVal_nil_row]
      cases p <;> rfl
    | cons v vs =>
      cases p with
      | zero => simp [lookupVal_cons]
      | succ q =>
        have hq : q < cs.length := by simpa using hp
        have hne : c ≠ cs.getD q "" := fun e => hc (e ▸ getD_mem_of_lt cs q hq "")
        simp only [lookupVal_cons, List.getD_cons_succ, hne, if_false]
        exact ih vs hnd' q hq

theorem keptLabels_cols (t : Table) : (pruneZeros t).cols = keptLabels t := rfl

theorem colAllZero_eq_false_iff (rows : List (List Val)) (p : Nat) :
    (colAllZero rows p = false ↔ ∃ r ∈ rows, r.getD p Val.nan ≠ Val.int 0) := by
  constructor
  · intro h
    by_contra hc
    push_neg at hc
    have h' : colAllZero rows p = true := by
      simp only [colAllZero, List.all_eq_true, beq_iff_eq]
      exact fun r hr => hc r hr
    rw [h'] at h; cases h
  · rintro ⟨r, hr, hne⟩
    by_contra h
    have h' : colAllZero rows p = true := by
      cases hb : colAllZero rows p
      · exact absurd hb h
      · rfl
    exact hne (beq_iff_eq.mp (List.all_eq_true.mp h' r hr))

/-- A column of the original frame, located at position `p`, survives the
pruning exactly when some row is nonzero there. -/
theorem mem_keptLabels_iff (t : Table) (hnd : t.cols.Nodup) (p : Nat)
    (hp : p < t.cols.length) :
    (t.cols.getD p "" ∈ keptLabels t ↔ ∃ r ∈ t.rows, r.getD p Val.nan ≠ Val.int 0) := by
  unfold keptLabels
  rw [mem_maskList_of_nodup hnd _ p hp (by rw [keepMaskAux_length])]
  rw [keepMaskAux_getD t.rows t.cols 0 p hp]
  simp only [Nat.zero_add, Bool.not_eq_true']
  exact colAllZero_eq_false_iff t.rows p

theorem exists_getD_of_mem {α : Type} {l : List α} {a : α} (h : a ∈ l) (d : α) :
    ∃ p, p < l.length ∧ l.getD p d = a := by
  induction l with
  | nil => cases h
  | cons x xs ih =>
    rcases List.mem_cons.mp h with rfl | h'
    · exact ⟨0, by simp, rfl⟩
    · obtain ⟨p, hp, he⟩ := ih h'
      exact ⟨p + 1, by simpa using hp, he⟩

/-- Name-based version of `mem_keptLabels_iff` for duplicate-free frames. -/
theorem mem_keptLabels_lookup_iff (t : Table) (hnd : t.cols.Nodup) {c : String}
    (hc : c ∈ t.cols) :
    (c ∈ keptLabels t ↔ ∃ r ∈ t.rows, lookupVal t.cols r c ≠ Val.int 0) := by
  obtain ⟨p, hp, he⟩ := exists_getD_of_mem hc ""
  rw [← he, mem_keptLabels_iff t hnd p hp]
  apply exists_congr
  intro r
  apply and_congr_right
  intro _
  rw [lookupVal_getD_of_nodup t.cols r hnd p hp]

theorem pruneZeros_rows (t : Table) :
    (pruneZeros t).rows = t.rows.map (fun r => (keptLabels t).map (lookupVal t.cols r)) := rfl

theorem keptLabels_pruneZeros (t : Table) (hnd : t.cols.Nodup) :
    keptLabels (pruneZeros t) = keptLabels t := by
  show maskList (keepMaskAux (pruneZeros t).rows 0 (keptLabels t)) (keptLabels t) =
    keptLabels t
  apply maskList_all_true
  · rw [keepMaskAux_length]
  · intro j hj
    rw [keepMaskAux_length] at hj
    rw [keepMaskAux_getD _ _ 0 j hj]
    simp only [Nat.zero_add, Bool.not_eq_true']
    rw [colAllZero_eq_false_iff]
    have hcmem : (keptLabels t).getD j "" ∈ keptLabels t := getD_mem_of_lt _ j hj ""
    have hccols : (keptLabels t).getD j "" ∈ t.cols :=
      (maskList_sublist _ _).subset hcmem
    obtain ⟨r, hr, hne⟩ := (mem_keptLabels_lookup_iff t hnd hccols).mp hcmem
    refine ⟨(keptLabels t).map (lookupVal t.cols r), ?_, ?_⟩
    · rw [pruneZeros_rows]
      exact List.mem_map_of_mem _ hr
    · rw [getD_map_of_lt _ _ j hj Val.nan ""]
      exact hne

theorem pruneZeros_idem (t : Table) (hnd : t.cols.Nodup) :
    pruneZeros (pruneZeros t) = pruneZeros t := by
  have h1 : keptLabels (pruneZeros t) = keptLabels t := keptLabels_pruneZeros t hnd
  apply Table.eq_of_fields
  · rw [keptLabels_cols, h1, keptLabels_cols]
  · calc (pruneZeros (pruneZeros t)).rows
        = (pruneZeros t).rows.map
            (fun r => (keptLabels (pruneZeros t)).map (lookupVal (keptLabels t) r)) := rfl
      _ = (pruneZeros t).rows.map
            (fun r => (keptLabels t).map (lookupVal (keptLabels t) r)) := by rw [h1]
      _ = t.rows.map (fun r => (keptLabels t).map
            (lookupVal (keptLabels t) ((keptLabels t).map (lookupVal t.cols r)))) := by
            rw [pruneZeros_rows, List.map_map]; rfl
      _ = t.rows.map (fun r => (keptLabels t).map (lookupVal t.cols r)) := by
            apply List.map_congr_left
            intro r _
            apply List.map_congr_left
            intro c hc
            rw [lookupVal_map_self]
            simp [hc]
      _ = (pruneZeros t).rows := (pruneZeros_rows t).symm
  · rfl

/-- C6: the longform pipeline's zero-column removal drops a column exactly
when its value is the integer zero in every row, and the removal is
idempotent: pruning an already-pruned frame changes nothing.  (Stated for
frames with duplicate-free column labels, which is the shape every pipeline
output has.) -/
theorem pruneZeros_allzero_iff_and_idem (t : Table) (hnd : t.cols.Nodup) :
    (∀ c ∈ t.cols,
      (c ∈ (pruneZeros t).cols ↔ ∃ r ∈ t.rows, lookupVal t.cols r c ≠ Val.int 0)) ∧
    pruneZeros (pruneZeros t) = pruneZeros t :=
  ⟨fun _ hc => mem_keptLabels_lookup_iff t hnd hc, pruneZeros_idem t hnd⟩

/-- C6 witness: on a concrete frame, the all-zero column "a" is dropped and
pruning is a no-op the second time. -/
theorem pruneZeros_witness :
    c6Table.cols.Nodup ∧
    ("a" ∈ (pruneZeros c6Table).cols ↔
      ∃ r ∈ c6Table.rows, lookupVal c6Table.cols r "a" ≠ Val.int 0) ∧
    pruneZeros (pruneZeros c6Table) = pruneZeros c6Table :=
  ⟨by decide,
    (pruneZeros_allzero_iff_and_idem c6Table (by decide)).1 "a" (by decide),
    (pruneZeros_allzero_iff_and_idem c6Table (by decide)).2⟩

/-! ### Sorted output and dense index (C7) -/

theorem keyLEb_cons (a b : Val) (as bs : List Val) :
    keyLEb (a :: as) (b :: bs) =
      if valLEb a b = true then (if valLEb b a = true then keyLEb as bs else true)
      else false := rfl

theorem keyLEb_total (a b : List Val) : keyLEb a b = true ∨ keyLEb b a = true := by
  induction a generalizing b with
  | nil => left; rfl
  | cons x xs ih =>
    cases b with
    | nil => right; rfl
    | cons y ys =>
      by_cases h1 : valLEb x y = true
      · by_cases h2 : valLEb y x = true
        · rcases ih ys with h | h
          · left; rw [keyLEb_cons, if_pos h1, if_pos h2]; exact h
          · right; rw [keyLEb_cons, if_pos h2, if_pos h1]; exact h
        · left; rw [keyLEb_cons, if_pos h1, if_neg h2]
      · have hf : valLEb x y = false := by revert h1; cases valLEb x y <;> simp
        have h2 : valLEb y x = true := valLEb_false hf
        right; rw [keyLEb_cons, if_pos h2, if_neg h1]

theorem keyLEb_trans {a b c : List Val} (h1 : keyLEb a b = true)
    (h2 : keyLEb b c = true) : keyLEb a c = true := by
  induction a generalizing b c with
  | nil => rfl
  | cons x xs ih =>
    cases b with
    | nil => simp [keyLEb] at h1
    | cons y ys =>
      cases c with
      | nil => simp [keyLEb] at h2
      | cons z zs =>
        by_cases hxy : valLEb x y = true
        case neg => rw [keyLEb_cons, if_neg hxy] at h1; exact Bool.noConfusion h1
        by_cases hyz : valLEb y z = true
        case neg => rw [keyLEb_cons, if_neg hyz] at h2; exact Bool.noConfusion h2
        have hxz : valLEb x z = true := valLEb_trans hxy hyz
        rw [keyLEb_cons, if_pos hxy] at h1
        rw [keyLEb_cons, if_pos hyz] at h2
        rw [keyLEb_cons, if_pos hxz]
        by_cases hzx : valLEb z x = true
        · have hyx : valLEb y x = true := valLEb_trans hyz hzx
          have hzy : valLEb z y = true := valLEb_trans hzx hxy
          rw [if_pos hyx] at h1
          rw [if_pos hzy] at h2
          rw [if_pos hzx]
          exact ih h1 h2
        · rw [if_neg hzx]

theorem keyLEb_head {x y : Val} {xs ys : List Val}
    (h : keyLEb (x :: xs) (y :: ys) = true) : valLEb x y = true := by
  by_cases hv : valLEb x y = true
  · exact hv
  · rw [keyLEb_cons, if_neg hv] at h
    exact Bool.noConfusion h

theorem sortedByGeoId_sortValues (t : Table) : sortedByGeoId (sortValuesBy t "geo_id") := by
  unfold sortedByGeoId
  haveI : IsTotal (Nat × List Val) (rowKeyLE t.cols "geo_id") :=
    ⟨fun _ _ => valLEb_total _ _⟩
  haveI : IsTrans (Nat × List Val) (rowKeyLE t.cols "geo_id") :=
    ⟨fun _ _ _ => valLEb_trans⟩
  have hs := List.sorted_insertionSort (rowKeyLE t.cols "geo_id") (t.index.zip t.rows)
  rw [show (sortValuesBy t "geo_id").rows =
      (List.insertionSort (rowKeyLE t.cols "geo_id") (t.index.zip t.rows)).map
        (fun pr => pr.2) from rfl,
    show (sortValuesBy t "geo_id").cols = t.cols from rfl, List.map_map]
  exact hs.map _ (fun _ _ h => h)

theorem sortedByGeoId_resetIndexDrop {t : Table} (h : sortedByGeoId t) :
    sortedByGeoId (resetIndexDrop t) := h

theorem denseIndex_resetIndexDrop (t : Table) : denseIndex (resetIndexDrop t) := rfl

/-- Every successful longform download ends in sort + reset_index. -/
theorem downloadLong_ok_shape (key : String) (year : Int) (jobType : String)
    (files : String → Table) (tracts : Table) {out : Table}
    (h : (downloadLong key year jobType files tracts).1 = .ok out) :
    ∃ t0, out = resetIndexDrop (sortValuesBy t0 "geo_id") := by
  unfold downloadLong at h
  split at h
  · exact absurd h (by simp)
  split at h
  · exact absurd h (by simp)
  split at h
  · exact absurd h (by simp)
  · exact ⟨_, (Except.ok.injEq _ _ ▸ h).symm⟩

/-- Every successful OD summary download ends in sort + reset_index. -/
theorem downloadSummary_ok_shape (year : Int) (kind jobType : String)
    (files : String → Table) (tracts : Table) {out : Table}
    (h : (downloadSummary year kind jobType files tracts).1 = .ok out) :
    ∃ t0, out = resetIndexDrop (sortValuesBy t0 "geo_id") := by
  unfold downloadSummary at h
  split at h
  · exact absurd h (by simp)
  split at h
  · exact absurd h (by simp)
  split at h
  · exact absurd h (by simp)
  · exact ⟨_, (Except.ok.injEq _ _ ▸ h).symm⟩

theorem sorted_headD_of_sorted_keys {ks : List (List Val)}
    (hs : List.Sorted (fun a b => keyLEb a b = true) ks)
    (hne : ∀ k ∈ ks, k ≠ []) :
    List.Sorted (fun a b => valLEb a b = true) (ks.map (fun k => k.headD Val.nan)) := by
  induction ks with
  | nil => simp
  | cons k ks ih =>
    rw [List.map_cons]
    rw [List.sorted_cons] at hs ⊢
    obtain ⟨hk, hks⟩ := hs
    refine ⟨?_, ih hks (fun k' hk' => hne k' (List.mem_cons_of_mem _ hk'))⟩
    intro b hb
    obtain ⟨k', hk', rfl⟩ := List.mem_map.mp hb
    have h1 := hne k (List.mem_cons_self _ _)
    have h2 := hne k' (List.mem_cons_of_mem _ hk')
    have h3 := hk k' hk'
    cases k with
    | nil => exact absurd rfl h1
    | cons x xs =>
      cases k' with
      | nil => exact absurd rfl h2
      | cons y ys => exact keyLEb_head h3

theorem groupKeysSorted_sorted (t : Table) (keys : List String) :
    List.Sorted (fun a b => keyLEb a b = true) (groupKeysSorted t keys) := by
  haveI : IsTotal (List Val) (fun a b => keyLEb a b = true) := ⟨keyLEb_total⟩
  haveI : IsTrans (List Val) (fun a b => keyLEb a b = true) := ⟨fun _ _ _ => keyLEb_trans⟩
  exact List.sorted_insertionSort _ _

theorem groupKeysSorted_shape (t : Table) (k0 : String) (ks' : List String) :
    ∀ k ∈ groupKeysSorted t (k0 :: ks'), ∃ r, k = keyOfRow t (k0 :: ks') r := by
  intro k hk
  rw [groupKeysSorted, List.mem_insertionSort, List.mem_dedup] at hk
  obtain ⟨r, _, rfl⟩ := List.mem_map.mp hk
  exact ⟨r, rfl⟩

theorem lookupVal_geoId_groupRow (src : Table) (gk gn : String) (rest : List String)
    (r : List Val) (vals : List String) :
    lookupVal ("geo_id" :: rest)
        (groupRowOf src (gk :: [gn]) vals (keyOfRow src (gk :: [gn]) r)) "geo_id" =
      (keyOfRow src (gk :: [gn]) r).headD Val.nan := by
  rw [keyOfRow, List.map_cons, groupRowOf, List.cons_append, lookupVal_cons, if_pos rfl]
  rfl

/-- The aggregation collaborator's output, after the generic key columns are
renamed back to `geo_id`/`geo_name`, is sorted ascending by `geo_id` and has
a dense index. -/
theorem aggRename_sorted_dense (src : Table) (gk gn : String) :
    sortedByGeoId (renameCols (aggregate_count_data src gk [gn])
      [(gk, "geo_id"), (gn, "geo_name")]) ∧
    denseIndex (renameCols (aggregate_count_data src gk [gn])
      [(gk, "geo_id"), (gn, "geo_name")]) := by
  constructor
  · unfold sortedByGeoId
    have hcols0 : (renameCols (aggregate_count_data src gk [gn])
        [(gk, "geo_id"), (gn, "geo_name")]).cols =
        ((gk :: [gn]) ++ aggNumericCols src gk [gn]).map
          (fun c => (List.lookup c [(gk, "geo_id"), (gn, "geo_name")]).getD c) := rfl
    have hhead : (List.lookup gk [(gk, "geo_id"), (gn, "geo_name")]).getD gk =
        "geo_id" := by simp [List.lookup]
    have hcols : (renameCols (aggregate_count_data src gk [gn])
        [(gk, "geo_id"), (gn, "geo_name")]).cols =
        "geo_id" :: (([gn] ++ aggNumericCols src gk [gn]).map
          (fun c => (List.lookup c [(gk, "geo_id"), (gn, "geo_name")]).getD c)) := by
      rw [hcols0, List.cons_append]
      simp only [List.map_cons]
      rw [hhead]
    rw [show (renameCols (aggregate_count_data src gk [gn])
        [(gk, "geo_id"), (gn, "geo_name")]).rows =
      (groupKeysSorted src (gk :: [gn])).map
        (groupRowOf src (gk :: [gn]) (aggNumericCols src gk [gn])) from rfl]
    rw [hcols, List.map_map]
    have hmap : ∀ k ∈ groupKeysSorted src (gk :: [gn]),
        ((fun r => lookupVal ("geo_id" :: (([gn] ++ aggNumericCols src gk [gn]).map
            (fun c => (List.lookup c [(gk, "geo_id"), (gn, "geo_name")]).getD c))) r
            "geo_id") ∘ groupRowOf src (gk :: [gn]) (aggNumericCols src gk [gn])) k =
          k.headD Val.nan := by
      intro k hk
      obtain ⟨r, rfl⟩ := groupKeysSorted_shape _ _ _ k hk
      exact lookupVal_geoId_groupRow src gk gn _ r _
    rw [List.map_congr_left hmap]
    apply sorted_headD_of_sorted_keys (groupKeysSorted_sorted _ _)
    intro k hk
    obtain ⟨r, rfl⟩ := groupKeysSorted_shape _ _ _ k hk
    simp [keyOfRow]
  · rfl

theorem getLong_sorted_dense (level : String) (tractData x1 x2 : Table)
    (hs : sortedByGeoId tractData) (hd : denseIndex tractData) {out : Table}
    (h : getLong level tractData x1 x2 = .ok out) :
    sortedByGeoId out ∧ denseIndex out := by
  unfold getLong at h
  split at h
  · exact absurd h (by simp)
  split at h
  · injection h with h
    subst h
    exact ⟨hs, hd⟩
  · injection h with h
    subst h
    exact aggRename_sorted_dense _ _ _

theorem getSummary_sorted_dense (level : String) (tractData x1 x2 : Table)
    (hs : sortedByGeoId tractData) (hd : denseIndex tractData) {out : Table}
    (h : getSummary level tractData x1 x2 = .ok out) :
    sortedByGeoId out ∧ denseIndex out := by
  unfold getSummary at h
  split at h
  · exact absurd h (by simp)
  split at h
  · injection h with h
    subst h
    exact ⟨hs, hd⟩
  · injection h with h
    subst h
    exact aggRename_sorted_dense _ _ _

/-- C7: every pipeline output is sorted ascending by `geo_id` with a dense
zero-based row index: both `download` entry points, and both `get`
orchestrators at every geographic level (the `get`s receive the tract-level
table from the fetch layer, itself a download output, so it is sorted and
densely indexed). -/
theorem outputs_sorted_and_densely_indexed
    (key : String) (year : Int) (jobType kind level : String)
    (files : String → Table) (tracts tractData xwalkNta xwalkPuma : Table)
    (outL outS outGL outGS : Table) :
    ((downloadLong key year jobType files tracts).1 = .ok outL →
      sortedByGeoId outL ∧ denseIndex outL) ∧
    ((downloadSummary year kind jobType files tracts).1 = .ok outS →
      sortedByGeoId outS ∧ denseIndex outS) ∧
    (sortedByGeoId tractData → denseIndex tractData →
      (getLong level tractData xwalkNta xwalkPuma = .ok outGL →
        sortedByGeoId outGL ∧ denseIndex outGL) ∧
      (getSummary level tractData xwalkNta xwalkPuma = .ok outGS →
        sortedByGeoId outGS ∧ denseIndex outGS)) := by
  refine ⟨fun h => ?_, fun h => ?_, fun hs hd => ⟨fun h => ?_, fun h => ?_⟩⟩
  · obtain ⟨t0, rfl⟩ := downloadLong_ok_shape _ _ _ _ _ h
    exact ⟨sortedByGeoId_resetIndexDrop (sortedByGeoId_sortValues t0), rfl⟩
  · obtain ⟨t0, rfl⟩ := downloadSummary_ok_shape _ _ _ _ _ h
    exact ⟨sortedByGeoId_resetIndexDrop (sortedByGeoId_sortValues t0), rfl⟩
  · exact getLong_sorted_dense _ _ _ _ hs hd h
  · exact getSummary_sorted_dense _ _ _ _ hs hd h

/-- C7 witness: concrete runs of all four entry points, with the resulting
tables sorted and densely indexed. -/
theorem outputs_sorted_witness :
    ((downloadLong "wac" 2002 "all" wFilesLong wTracts).1 = .ok wOutLong ∧
     (downloadSummary 2002 "work" "all" wFilesSummary wTracts).1 = .ok wOutSummaryWork ∧
     sortedByGeoId wTractData ∧ denseIndex wTractData ∧
     getLong "nta" wTractData wXwalkNta wXwalkNta = .ok wOutGetNta ∧
     getSummary "nta" wTractData wXwalkNta wXwalkNta = .ok wOutGetSummaryNta) ∧
    ((sortedByGeoId wOutLong ∧ denseIndex wOutLong) ∧
     (sortedByGeoId wOutSummaryWork ∧ denseIndex wOutSummaryWork) ∧
     (sortedByGeoId wOutGetNta ∧ denseIndex wOutGetNta) ∧
     (sortedByGeoId wOutGetSummaryNta ∧ denseIndex wOutGetSummaryNta)) := by
  have hL : (downloadLong "wac" 2002 "all" wFilesLong wTracts).1 = .ok wOutLong := rfl
  have hS : (downloadSummary 2002 "work" "all" wFilesSummary wTracts).1 =
      .ok wOutSummaryWork := rfl
  have hsd : sortedByGeoId wTractData := by unfold sortedByGeoId; decide
  have hdd : denseIndex wTractData := by unfold denseIndex; decide
  have hGL : getLong "nta" wTractData wXwalkNta wXwalkNta = .ok wOutGetNta := rfl
  have hGS : getSummary "nta" wTractData wXwalkNta wXwalkNta = .ok wOutGetSummaryNta := rfl
  have T1 := outputs_sorted_and_densely_indexed "wac" 2002 "all" "work" "nta"
    wFilesLong wTracts wTractData wXwalkNta wXwalkNta
    wOutLong wOutSummaryWork wOutGetNta wOutGetSummaryNta
  have T2 := outputs_sorted_and_densely_indexed "wac" 2002 "all" "work" "nta"
    wFilesSummary wTracts wTractData wXwalkNta wXwalkNta
    wOutLong wOutSummaryWork wOutGetNta wOutGetSummaryNta
  exact ⟨⟨hL, hS, hsd, hdd, hGL, hGS⟩,
    T1.1 hL, T2.2.1 hS, (T1.2.2 hsd hdd).1 hGL, (T1.2.2 hsd hdd).2 hGS⟩

/-! ### Row tracing through merge, prune and sort (C3) -/

theorem mem_rows_sortValuesBy {t : Table} {key : String} {row : List Val}
    (h : row ∈ (sortValuesBy t key).rows) : row ∈ t.rows := by
  unfold sortValuesBy at h
  simp only [List.mem_map] at h
  obtain ⟨pr, hpr, rfl⟩ := h
  rw [List.mem_insertionSort] at hpr
  exact (List.of_mem_zip hpr).2

/-- Decomposing a row of an inner merge on a shared key. -/
theorem mem_mergeOn_rows {l r : Table} {key : String} {row : List Val} :
    row ∈ (mergeOn l r key).rows ↔ ∃ lr ∈ l.rows, ∃ rr ∈ r.rows,
      lookupVal r.cols rr key = lookupVal l.cols lr key ∧
      row = l.cols.map (lookupVal l.cols lr) ++
        (r.cols.filter (fun c => c ≠ key)).map (lookupVal r.cols rr) := by
  unfold mergeOn
  simp only [List.mem_flatten, List.mem_map]
  constructor
  · rintro ⟨chunk, ⟨lr, hlr, rfl⟩, hrow⟩
    obtain ⟨rr, hrr, rfl⟩ := List.mem_map.mp hrow
    have hf := List.mem_filter.mp hrr
    exact ⟨lr, hlr, rr, hf.1, beq_iff_eq.mp hf.2, rfl⟩
  · rintro ⟨lr, hlr, rr, hrr, hkey, rfl⟩
    exact ⟨_, ⟨lr, hlr, rfl⟩,
      List.mem_map_of_mem _ (List.mem_filter.mpr ⟨hrr, beq_iff_eq.mpr hkey⟩)⟩

theorem lookup_mem_values {α β : Type} [BEq α] (l : List (α × β)) (c : α) (v : β)
    (h : List.lookup c l = some v) : v ∈ l.map (fun p => p.2) := by
  induction l with
  | nil => cases h
  | cons p ps ih =>
    cases hc : (c == p.1) with
    | true =>
      have h' : some p.2 = some v := by rwa [List.lookup, hc] at h
      injection h' with h'
      exact h' ▸ List.mem_cons_self _ _
    | false =>
      have h' : List.lookup c ps = some v := by rwa [List.lookup, hc] at h
      exact List.mem_cons_of_mem _ (ih h')

/-- Renaming through a map that neither moves `name` nor maps anything else
onto it leaves lookups at `name` unchanged. -/
theorem lookupVal_map_ren (cols : List String) (row : List Val) (ren : String → String)
    (name : String) (h : ∀ c, ren c = name ↔ c = name) :
    lookupVal (cols.map ren) row name = lookupVal cols row name := by
  induction cols generalizing row with
  | nil => rfl
  | cons c cs ih =>
    cases row with
    | nil => rw [List.map_cons, lookupVal_nil_row, lookupVal_nil_row]
    | cons v vs =>
      rw [List.map_cons, lookupVal_cons, lookupVal_cons]
      by_cases hc : c = name
      · rw [if_pos ((h c).mpr hc), if_pos hc]
      · rw [if_neg (fun e => hc ((h c).mp e)), if_neg hc]
        exact ih vs

/-- No raw LODES code renames to `geo_id`. -/
theorem rawFields_ren_fixed_geoId :
    ∀ c, ((List.lookup c RAW_FIELDS).getD c) = "geo_id" ↔ c = "geo_id" := by
  intro c
  constructor
  · intro h
    cases hl : List.lookup c RAW_FIELDS with
    | none =>
      rw [hl] at h
      simpa using h
    | some v =>
      rw [hl] at h
      simp only [Option.getD_some] at h
      have hv : v ∈ RAW_FIELDS.map (fun p => p.2) := lookup_mem_values _ _ _ hl
      rw [h] at hv
      exact absurd hv (by decide)
  · rintro rfl
    rw [show List.lookup "geo_id" RAW_FIELDS = none from by decide]
    rfl

theorem mem_cols_mapColVals (t : Table) (name : String) (f : Val → Val) :
    name ∈ (mapColVals t name f).cols := by
  unfold mapColVals setColF
  by_cases h : name ∈ t.cols
  · rw [if_pos h]; exact h
  · rw [if_neg h]; exact List.mem_append_right _ (List.mem_singleton.mpr rfl)

theorem exists_first_getD {l : List String} {name : String} (h : name ∈ l) :
    ∃ p, p < l.length ∧ l.getD p "" = name ∧ ∀ q < p, l.getD q "" ≠ name := by
  induction l with
  | nil => cases h
  | cons c cs ih =>
    by_cases hc : c = name
    · exact ⟨0, by simp, hc, fun q hq => by omega⟩
    · rcases List.mem_cons.mp h with rfl | h'
      · exact absurd rfl hc
      · obtain ⟨p, hp, he, hmin⟩ := ih h'
        refine ⟨p + 1, by simpa using hp, he, fun q hq => ?_⟩
        cases q with
        | zero => exact hc
        | succ q' => exact hmin q' (by omega)

theorem lookupVal_getD_first {cols : List String} {row : List Val} {name : String}
    {p : Nat} (h1 : cols.getD p "" = name) (h2 : ∀ q < p, cols.getD q "" ≠ name)
    (hp : p < cols.length) : lookupVal cols row name = row.getD p Val.nan := by
  induction cols generalizing row p with
  | nil => simp at hp
  | cons c cs ih =>
    cases row with
    | nil =>
      rw [lookupVal_nil_row]
      cases p <;> rfl
    | cons v vs =>
      cases p with
      | zero =>
        have hc : c = name := h1
        rw [lookupVal_cons, if_pos hc]
        rfl
      | succ q =>
        have hc : c ≠ name := h2 0 (by omega)
        rw [lookupVal_cons, if_neg hc]
        exact ih h1 (fun q' hq' => h2 (q' + 1) (by omega)) (by simpa using hp)

theorem mem_maskList_of_getD {α : Type} (m : List Bool) (l : List α) (p : Nat)
    (hp : p < l.length) (hm : m.getD p false = true) (d : α) :
    l.getD p d ∈ maskList m l := by
  induction l generalizing m p with
  | nil => simp at hp
  | cons x xs ih =>
    cases m with
    | nil => simp at hm
    | cons b ms =>
      cases p with
      | zero =>
        have hb : b = true := hm
        subst hb
        exact List.mem_cons_self _ _
      | succ q =>
        have := ih ms q (by simpa using hp) hm
        cases b
        · exact this
        · exact List.mem_cons_of_mem _ this

theorem mem_keptLabels_of_nonzero (t : Table) (p : Nat) (hp : p < t.cols.length)
    (hnz : ∃ r ∈ t.rows, r.getD p Val.nan ≠ Val.int 0) :
    t.cols.getD p "" ∈ keptLabels t := by
  apply mem_maskList_of_getD _ _ p hp
  rw [keepMaskAux_getD t.rows t.cols 0 p hp]
  simp only [Nat.zero_add, Bool.not_eq_true']
  exact (colAllZero_eq_false_iff t.rows p).mpr hnz

/-- Core of C3, stated over the stringified tract reference `tractsS` and the
grouped data `N`: every row of the longform result draws its `geo_id` from
the tract reference geo_id column. -/
theorem longform_geoId_core (tractsS N : Table) (hmem : "geo_id" ∈ tractsS.cols)
    (htr : ∀ v ∈ tractGeoIds tractsS, ∃ s, v = Val.str s ∧ s.length = 11) :
    ∀ row ∈ (resetIndexDrop (sortValuesBy (pruneZeros
        (renameCols (mergeOn tractsS N "geo_id") RAW_FIELDS)) "geo_id")).rows,
      ∃ s : String,
        lookupVal (resetIndexDrop (sortValuesBy (pruneZeros
            (renameCols (mergeOn tractsS N "geo_id") RAW_FIELDS)) "geo_id")).cols
          row "geo_id" = Val.str s ∧ s.length = 11 ∧
        Val.str s ∈ tractGeoIds tractsS := by
  intro row hrow
  have hrow' : row ∈ (pruneZeros (renameCols (mergeOn tractsS N "geo_id")
      RAW_FIELDS)).rows := mem_rows_sortValuesBy hrow
  rw [pruneZeros_rows] at hrow'
  obtain ⟨r0, hr0, rfl⟩ := List.mem_map.mp hrow'
  have hr0m : r0 ∈ (mergeOn tractsS N "geo_id").rows := hr0
  obtain ⟨lr, hlr, rr, hrr, hkey, rfl⟩ := mem_mergeOn_rows.mp hr0m
  have hvmem : lookupVal tractsS.cols lr "geo_id" ∈ tractGeoIds tractsS :=
    List.mem_map_of_mem _ hlr
  obtain ⟨s, hs, hlen⟩ := htr _ hvmem
  have hfix := rawFields_ren_fixed_geoId
  have hlookm : lookupVal (renameCols (mergeOn tractsS N "geo_id") RAW_FIELDS).cols
      (tractsS.cols.map (lookupVal tractsS.cols lr) ++
        (N.cols.filter (fun c => c ≠ "geo_id")).map (lookupVal N.cols rr)) "geo_id" =
      lookupVal tractsS.cols lr "geo_id" := by
    rw [show (renameCols (mergeOn tractsS N "geo_id") RAW_FIELDS).cols =
      ((mergeOn tractsS N "geo_id").cols).map
        (fun c => (List.lookup c RAW_FIELDS).getD c) from rfl]
    rw [lookupVal_map_ren _ _ _ _ hfix]
    rw [show (mergeOn tractsS N "geo_id").cols =
      tractsS.cols ++ (N.cols.filter (fun c => c ≠ "geo_id")) from rfl]
    rw [lookupVal_append_left _ _ _ _ _ (by rw [List.length_map]) hmem]
    rw [lookupVal_map_self, if_pos hmem]
  have hGmem' : "geo_id" ∈ (renameCols (mergeOn tractsS N "geo_id") RAW_FIELDS).cols := by
    rw [show (renameCols (mergeOn tractsS N "geo_id") RAW_FIELDS).cols =
      ((mergeOn tractsS N "geo_id").cols).map
        (fun c => (List.lookup c RAW_FIELDS).getD c) from rfl]
    exact List.mem_map.mpr ⟨"geo_id",
      List.mem_append_left _ hmem, (hfix "geo_id").mpr rfl⟩
  obtain ⟨p, hp, hpe, hpmin⟩ := exists_first_getD hGmem'
  have hgetD : (tractsS.cols.map (lookupVal tractsS.cols lr) ++
      (N.cols.filter (fun c => c ≠ "geo_id")).map (lookupVal N.cols rr)).getD p Val.nan =
      Val.str s := by
    rw [← lookupVal_getD_first hpe hpmin hp, hlookm, hs]
  have hkept : "geo_id" ∈
      keptLabels (renameCols (mergeOn tractsS N "geo_id") RAW_FIELDS) := by
    have := mem_keptLabels_of_nonzero
      (renameCols (mergeOn tractsS N "geo_id") RAW_FIELDS) p hp
      ⟨_, hr0, by rw [hgetD]; exact fun e => Val.noConfusion e⟩
    rw [hpe] at this
    exact this
  refine ⟨s, ?_, hlen, hs ▸ hvmem⟩
  rw [show (resetIndexDrop (sortValuesBy (pruneZeros
      (renameCols (mergeOn tractsS N "geo_id") RAW_FIELDS)) "geo_id")).cols =
    keptLabels (renameCols (mergeOn tractsS N "geo_id") RAW_FIELDS) from rfl]
  rw [lookupVal_map_self, if_pos hkept, hlookm, hs]

/-- C3: for every row of the longform pipeline's output, `geo_id` is a string
of exactly eleven characters and a member of the tract reference set's geo_id
column (the join key being the raw geocode stringified and left-truncated to
eleven characters).  The tract reference collaborator's geo_ids are assumed
to be 11-character strings, which is the canonical tract-identifier shape. -/
theorem downloadLong_geoId_len11_and_member
    (key : String) (year : Int) (jobType : String) (files : String → Table)
    (tracts : Table) {out : Table}
    (h : (downloadLong key year jobType files tracts).1 = .ok out)
    (htr : ∀ v ∈ tractGeoIds (astypeStrCol tracts "geo_id"),
      ∃ s, v = Val.str s ∧ s.length = 11) :
    ∀ row ∈ out.rows, ∃ s : String,
      lookupVal out.cols row "geo_id" = Val.str s ∧ s.length = 11 ∧
      Val.str s ∈ tractGeoIds (astypeStrCol tracts "geo_id") := by
  unfold downloadLong at h
  split at h
  · exact absurd h (by simp)
  split at h
  · exact absurd h (by simp)
  split at h
  · exact absurd h (by simp)
  · injection h with h
    rw [← h]
    exact longform_geoId_core (astypeStrCol tracts "geo_id") _
      (mem_cols_mapColVals tracts "geo_id" _) htr

set_option maxRecDepth 4000 in
/-- C3 witness: a concrete longform run whose first output row has an
11-character `geo_id` drawn from the tract reference set. -/
theorem downloadLong_geoId_witness :
    ((downloadLong "wac" 2002 "all" wFilesLong wTracts).1 = .ok wOutLong ∧
      wOutLong.rows.headD [] ∈ wOutLong.rows) ∧
    (∃ s, lookupVal wOutLong.cols (wOutLong.rows.headD []) "geo_id" = Val.str s ∧
      s.length = 11 ∧ Val.str s ∈ tractGeoIds (astypeStrCol wTracts "geo_id")) := by
  have htr : ∀ v ∈ tractGeoIds (astypeStrCol wTracts "geo_id"),
      ∃ s, v = Val.str s ∧ s.length = 11 := by
    intro v hv
    have he : tractGeoIds (astypeStrCol wTracts "geo_id") =
        [Val.str "42101000100", Val.str "42101000200"] := rfl
    rw [he] at hv
    rcases List.mem_cons.mp hv with rfl | hv'
    · exact ⟨"42101000100", rfl, rfl⟩
    · rcases List.mem_cons.mp hv' with rfl | hv''
      · exact ⟨"42101000200", rfl, rfl⟩
      · cases hv''
  have e2 : mapColVals (renameCols (wFilesLong (lodesFile "wac" "JT00" 2002))
      [("h_geocode", "geo_id"), ("w_geocode", "geo_id")]) "geo_id"
      (fun v => v.astypeStr.strSlice11) =
      { cols := ["geo_id", "C000", "CA01", "createdate"],
        rows := [[.str "42101000100", .int 3, .int 1, .int 20190826],
                 [.str "42101000100", .int 4, .int 0, .int 20190826],
                 [.str "42101000200", .int 5, .int 0, .int 20190826]],
        index := [0, 1, 2] } := rfl
  have hwOut : wOutLong =
      { cols := ["geo_id", "geometry", "total_jobs", "age_29_or_younger"],
        rows := [[.str "42101000100", .str "poly1", .int 7, .int 1],
                 [.str "42101000200", .str "poly2", .int 5, .int 0]],
        index := [0, 1] } := by
    rw [show wOutLong = resetIndexDrop (sortValuesBy (pruneZeros (renameCols
        (mergeOn (astypeStrCol wTracts "geo_id")
          (groupbySum
            (selectCols
              (mapColVals (renameCols (wFilesLong (lodesFile "wac" "JT00" 2002))
                [("h_geocode", "geo_id"), ("w_geocode", "geo_id")]) "geo_id"
                (fun v => v.astypeStr.strSlice11))
              ("geo_id" :: selectedRawCols
                (mapColVals (renameCols (wFilesLong (lodesFile "wac" "JT00" 2002))
                  [("h_geocode", "geo_id"), ("w_geocode", "geo_id")]) "geo_id"
                  (fun v => v.astypeStr.strSlice11)).cols))
            ["geo_id"]
            (selectedRawCols
              (mapColVals (renameCols (wFilesLong (lodesFile "wac" "JT00" 2002))
                [("h_geocode", "geo_id"), ("w_geocode", "geo_id")]) "geo_id"
                (fun v => v.astypeStr.strSlice11)).cols))
          "geo_id") RAW_FIELDS)) "geo_id") from rfl]
    rw [e2]
    rw [show selectedRawCols (Table.mk ["geo_id", "C000", "CA01", "createdate"]
      [[.str "42101000100", .int 3, .int 1, .int 20190826],
       [.str "42101000100", .int 4, .int 0, .int 20190826],
       [.str "42101000200", .int 5, .int 0, .int 20190826]] [0, 1, 2]).cols =
      ["C000", "CA01"] from rfl]
    rw [show selectCols (Table.mk ["geo_id", "C000", "CA01", "createdate"]
      [[.str "42101000100", .int 3, .int 1, .int 20190826],
       [.str "42101000100", .int 4, .int 0, .int 20190826],
       [.str "42101000200", .int 5, .int 0, .int 20190826]] [0, 1, 2])
      ("geo_id" :: ["C000", "CA01"]) =
      Table.mk ["geo_id", "C000", "CA01"]
        [[.str "42101000100", .int 3, .int 1],
         [.str "42101000100", .int 4, .int 0],
         [.str "42101000200", .int 5, .int 0]] [0, 1, 2] from rfl]
    rw [show groupbySum (Table.mk ["geo_id", "C000", "CA01"]
        [[.str "42101000100", .int 3, .int 1],
         [.str "42101000100", .int 4, .int 0],
         [.str "42101000200", .int 5, .int 0]] [0, 1, 2]) ["geo_id"] ["C000", "CA01"] =
      Table.mk ["geo_id", "C000", "CA01"]
        [[.str "42101000100", .int 7, .int 1],
         [.str "42101000200", .int 5, .int 0]] [0, 1] from rfl]
    rw [show astypeStrCol wTracts "geo_id" =
      Table.mk ["geo_id", "geometry"]
        [[.str "42101000100", .str "poly1"], [.str "42101000200", .str "poly2"]]
        [0, 1] from rfl]
    rfl
  have hmem : wOutLong.rows.headD [] ∈ wOutLong.rows := by
    rw [hwOut]
    exact List.mem_cons_self _ _
  exact ⟨⟨rfl, hmem⟩,
    downloadLong_geoId_len11_and_member "wac" 2002 "all" wFilesLong wTracts rfl htr
      (wOutLong.rows.headD []) hmem⟩

/-! ### Column assignment tracing (C8, C1) -/

theorem lookupVal_not_mem {cols : List String} {row : List Val} {c : String}
    (h : c ∉ cols) : lookupVal cols row c = Val.nan := by
  induction cols generalizing row with
  | nil => exact lookupVal_nil_cols row c
  | cons c' cs ih =>
    cases row with
    | nil => exact lookupVal_nil_row _ _
    | cons v vs =>
      rw [lookupVal_cons, if_neg (fun e => h (by rw [← e]; exact List.mem_cons_self _ _))]
      exact ih (fun e => h (List.mem_cons_of_mem _ e))

theorem setAtFirst_length (cols : List String) (r : List Val) (n : String) (w : Val) :
    (setAtFirst cols r n w).length = r.length := by
  induction cols generalizing r with
  | nil => cases r <;> rfl
  | cons c cs ih =>
    cases r with
    | nil => rfl
    | cons v vs =>
      rw [setAtFirst]
      by_cases hc : c = n
      · rw [if_pos hc]
        rfl
      · rw [if_neg hc, List.length_cons, List.length_cons, ih]

theorem lookupVal_setAtFirst_self {cols : List String} {r : List Val} {n : String}
    {w : Val} (hn : n ∈ cols) (hlen : r.length = cols.length) :
    lookupVal cols (setAtFirst cols r n w) n = w := by
  induction cols generalizing r with
  | nil => cases hn
  | cons c cs ih =>
    cases r with
    | nil => simp at hlen
    | cons v vs =>
      rw [setAtFirst]
      by_cases hc : c = n
      · rw [if_pos hc, lookupVal_cons, if_pos hc]
      · rw [if_neg hc, lookupVal_cons, if_neg hc]
        rcases List.mem_cons.mp hn with h | h
        · exact absurd h.symm hc
        · exact ih h (by simpa using hlen)

theorem lookupVal_setAtFirst_other {cols : List String} {r : List Val} {n n' : String}
    {w : Val} (hne : n ≠ n') :
    lookupVal cols (setAtFirst cols r n w) n' = lookupVal cols r n' := by
  induction cols generalizing r with
  | nil => rfl
  | cons c cs ih =>
    cases r with
    | nil => rfl
    | cons v vs =>
      rw [setAtFirst]
      by_cases hc : c = n
      · have hcn : ¬(c = n') := fun e => hne (hc.symm.trans e)
        rw [if_pos hc, lookupVal_cons, lookupVal_cons, if_neg hcn, if_neg hcn]
      · rw [if_neg hc, lookupVal_cons, lookupVal_cons]
        by_cases hc' : c = n'
        · rw [if_pos hc', if_pos hc']
        · rw [if_neg hc', if_neg hc']
          exact ih

/-- A row of `df[name] = f(df)`: the assigned column reads back `f` of the
underlying row, every other label is unchanged. -/
theorem mem_setColF_rows (t : Table) (name : String) (f : List Val → Val)
    (hal : ∀ r ∈ t.rows, r.length = t.cols.length) {row : List Val}
    (h : row ∈ (setColF t name f).rows) :
    ∃ r ∈ t.rows,
      lookupVal (setColF t name f).cols row name = f r ∧
      (∀ c, c ≠ name →
        lookupVal (setColF t name f).cols row c = lookupVal t.cols r c) := by
  unfold setColF at h ⊢
  by_cases hn : name ∈ t.cols
  · rw [if_pos hn] at h ⊢
    obtain ⟨r, hr, rfl⟩ := List.mem_map.mp h
    refine ⟨r, hr, ?_, ?_⟩
    · exact lookupVal_setAtFirst_self hn (hal r hr)
    · intro c hc
      exact lookupVal_setAtFirst_other (fun e => hc e.symm)
  · rw [if_neg hn] at h ⊢
    obtain ⟨r, hr, rfl⟩ := List.mem_map.mp h
    refine ⟨r, hr, ?_, ?_⟩
    · rw [lookupVal_append_right _ _ _ _ _ (hal r hr) hn, lookupVal_cons, if_pos rfl]
    · intro c hc
      by_cases hcc : c ∈ t.cols
      · exact lookupVal_append_left _ _ _ _ _ (hal r hr) hcc
      · rw [lookupVal_append_right _ _ _ _ _ (hal r hr) hcc, lookupVal_cons,
          if_neg (fun e => hc e.symm), lookupVal_nil_cols, lookupVal_not_mem hcc]

theorem setColF_aligned (t : Table) (n : String) (f : List Val → Val)
    (hal : ∀ r ∈ t.rows, r.length = t.cols.length) :
    ∀ r ∈ (setColF t n f).rows, r.length = (setColF t n f).cols.length := by
  unfold setColF
  by_cases hn : n ∈ t.cols
  · rw [if_pos hn]
    intro r hr
    obtain ⟨r0, hr0, rfl⟩ := List.mem_map.mp hr
    show (setAtFirst t.cols r0 n (f r0)).length = t.cols.length
    rw [setAtFirst_length]
    exact hal r0 hr0
  · rw [if_neg hn]
    intro r hr
    obtain ⟨r0, hr0, rfl⟩ := List.mem_map.mp hr
    show (r0 ++ [f r0]).length = (t.cols ++ [n]).length
    rw [List.length_append, List.length_append, hal r0 hr0]
    rfl

theorem concatT_aligned (a b : Table)
    (ha : ∀ r ∈ a.rows, r.length = a.cols.length) :
    ∀ r ∈ (concatT a b).rows, r.length = (concatT a b).cols.length := by
  intro r hr
  rcases List.mem_append.mp hr with h | h
  · exact ha r h
  · obtain ⟨r0, _, rfl⟩ := List.mem_map.mp h
    exact List.length_map _ _

/-- C8: in the OD summary pipeline, every record's `is_resident` flag is true
exactly when the first eleven characters of its (stringified) home geocode
appear among the tract reference set's geo_id values.  The OD files are
assumed rectangular (every row as wide as the header), which CSV input
guarantees. -/
theorem summaryData_classifies_residents
    (kindCol jt : String) (year : Int) (files : String → Table) (tractsS : Table)
    (hmain : ∀ r ∈ (files (odMainFile jt year)).rows,
      r.length = (files (odMainFile jt year)).cols.length) :
    ∀ row ∈ (summaryData kindCol jt year files tractsS).rows,
      lookupVal (summaryData kindCol jt year files tractsS).cols row "is_resident" =
        if (lookupVal (summaryData kindCol jt year files tractsS).cols row
            "h_geocode").strSlice11 ∈ tractGeoIds tractsS
        then Val.int 1 else Val.int 0 := by
  intro row hrow
  unfold summaryData at hrow ⊢
  have hald0 : ∀ r ∈ (if kindCol = "w_geocode"
      then concatT (files (odMainFile jt year)) (files (odAuxFile jt year))
      else files (odMainFile jt year)).rows,
      r.length = (if kindCol = "w_geocode"
      then concatT (files (odMainFile jt year)) (files (odAuxFile jt year))
      else files (odMainFile jt year)).cols.length := by
    by_cases hk : kindCol = "w_geocode"
    · rw [if_pos hk]
      exact concatT_aligned _ _ hmain
    · rw [if_neg hk]
      exact hmain
  have hald1 : ∀ r ∈ (astypeStrCol (astypeStrCol (if kindCol = "w_geocode"
      then concatT (files (odMainFile jt year)) (files (odAuxFile jt year))
      else files (odMainFile jt year)) "h_geocode") "w_geocode").rows,
      r.length = (astypeStrCol (astypeStrCol (if kindCol = "w_geocode"
      then concatT (files (odMainFile jt year)) (files (odAuxFile jt year))
      else files (odMainFile jt year)) "h_geocode") "w_geocode").cols.length :=
    setColF_aligned _ _ _ (setColF_aligned _ _ _ hald0)
  obtain ⟨r, _, hself, hother⟩ := mem_setColF_rows _ "is_resident" _ hald1 hrow
  rw [hself, hother "h_geocode" (by decide)]

/-- C8 witness: a concrete classified record (the auxiliary out-of-state
commute) carries `is_resident = 0`, matching the membership test. -/
theorem summaryData_classifies_witness :
    ((∀ r ∈ (wFilesSummary (odMainFile "JT00" 2002)).rows,
        r.length = (wFilesSummary (odMainFile "JT00" 2002)).cols.length) ∧
      (summaryData "w_geocode" "JT00" 2002 wFilesSummary
        (astypeStrCol wTracts "geo_id")).rows.headD [] ∈
        (summaryData "w_geocode" "JT00" 2002 wFilesSummary
          (astypeStrCol wTracts "geo_id")).rows) ∧
    lookupVal (summaryData "w_geocode" "JT00" 2002 wFilesSummary
        (astypeStrCol wTracts "geo_id")).cols
      ((summaryData "w_geocode" "JT00" 2002 wFilesSummary
        (astypeStrCol wTracts "geo_id")).rows.headD []) "is_resident" =
      if (lookupVal (summaryData "w_geocode" "JT00" 2002 wFilesSummary
          (astypeStrCol wTracts "geo_id")).cols
        ((summaryData "w_geocode" "JT00" 2002 wFilesSummary
          (astypeStrCol wTracts "geo_id")).rows.headD []) "h_geocode").strSlice11 ∈
          tractGeoIds (astypeStrCol wTracts "geo_id")
      then Val.int 1 else Val.int 0 := by
  have h1 : ∀ r ∈ (wFilesSummary (odMainFile "JT00" 2002)).rows,
      r.length = (wFilesSummary (odMainFile "JT00" 2002)).cols.length := by decide
  have hrows : (summaryData "w_geocode" "JT00" 2002 wFilesSummary
      (astypeStrCol wTracts "geo_id")).rows.headD [] ∈
      (summaryData "w_geocode" "JT00" 2002 wFilesSummary
        (astypeStrCol wTracts "geo_id")).rows := by
    decide
  exact ⟨⟨h1, hrows⟩,
    summaryData_classifies_residents "w_geocode" "JT00" 2002 wFilesSummary
      (astypeStrCol wTracts "geo_id") h1 _ hrows⟩

/-! ### Geometry column behaviour of the longform `get` (C10) -/

theorem geometry_not_mem_aggRename (src : Table) (gk gn : String)
    (hsrc : "geometry" ∉ src.cols) (hgk : gk ≠ "geometry") (hgn : gn ≠ "geometry") :
    "geometry" ∉ (renameCols (aggregate_count_data src gk [gn])
      [(gk, "geo_id"), (gn, "geo_name")]).cols := by
  intro hmem
  rw [show (renameCols (aggregate_count_data src gk [gn])
      [(gk, "geo_id"), (gn, "geo_name")]).cols =
    ((gk :: [gn]) ++ aggNumericCols src gk [gn]).map
      (fun c => (List.lookup c [(gk, "geo_id"), (gn, "geo_name")]).getD c) from rfl] at hmem
  obtain ⟨c, hc, he⟩ := List.mem_map.mp hmem
  have hcg : c = "geometry" := by
    cases hl : List.lookup c [(gk, "geo_id"), (gn, "geo_name")] with
    | none =>
      rw [hl] at he
      simpa using he
    | some v =>
      rw [hl] at he
      simp only [Option.getD_some] at he
      have hv := lookup_mem_values _ _ _ hl
      rw [he] at hv
      simp only [List.map_cons, List.map_nil] at hv
      exact absurd hv (by decide)
  subst hcg
  rcases List.mem_append.mp hc with h | h
  · rcases List.mem_cons.mp h with h' | h'
    · exact hgk h'.symm
    · rcases List.mem_cons.mp h' with h'' | h''
      · exact hgn h''.symm
      · cases h''
  · exact hsrc (List.mem_filter.mp h).1

theorem geometry_not_mem_mergeLeft (xwalk t : Table) (lk rk : String)
    (hx : "geometry" ∉ xwalk.cols) :
    "geometry" ∉ (mergeLeftKeys xwalk (dropColT t "geometry") lk rk).cols := by
  intro h
  rcases List.mem_append.mp h with h | h
  · exact hx h
  · have := (List.mem_filter.mp h).2
    simp at this

/-- C10: at level `tract` the longform `get` returns the fetch layer's table
unchanged (all columns, geometry included, intact); at the coarser levels the
geometry column is dropped before the crosswalk merge, so the aggregated
output never contains a geometry column.  (The crosswalk collaborator's
tables carry no geometry column.) -/
theorem getLong_geometry (level : String) (tractData xwalkNta xwalkPuma : Table)
    (hx1 : "geometry" ∉ xwalkNta.cols) (hx2 : "geometry" ∉ xwalkPuma.cols) :
    getLong "tract" tractData xwalkNta xwalkPuma = .ok tractData ∧
    ((level = "nta" ∨ level = "puma") → ∀ out,
      getLong level tractData xwalkNta xwalkPuma = .ok out →
        "geometry" ∉ out.cols) := by
  constructor
  · rfl
  · rintro (rfl | rfl) out hout
    · unfold getLong at hout
      rw [if_neg (by decide), if_neg (by decide), if_pos rfl] at hout
      injection hout with hout
      rw [← hout]
      exact geometry_not_mem_aggRename _ _ _
        (geometry_not_mem_mergeLeft _ _ _ _ hx1) (by decide) (by decide)
    · unfold getLong at hout
      rw [if_neg (by decide), if_neg (by decide), if_neg (by decide)] at hout
      injection hout with hout
      rw [← hout]
      exact geometry_not_mem_aggRename _ _ _
        (geometry_not_mem_mergeLeft _ _ _ _ hx2) (by decide) (by decide)

/-- C10 witness: at level `tract` the concrete table comes back unchanged
with its geometry column; at level `nta` the output has no geometry column. -/
theorem getLong_geometry_witness :
    ("geometry" ∉ wXwalkNta.cols ∧ "geometry" ∈ wTractData.cols ∧
      getLong "nta" wTractData wXwalkNta wXwalkNta = .ok wOutGetNta) ∧
    (getLong "tract" wTractData wXwalkNta wXwalkNta = .ok wTractData ∧
      "geometry" ∉ wOutGetNta.cols) := by
  have hx : "geometry" ∉ wXwalkNta.cols := by decide
  have h := getLong_geometry "nta" wTractData wXwalkNta wXwalkNta hx hx
  exact ⟨⟨hx, by decide, rfl⟩, h.1, h.2 (Or.inl rfl) wOutGetNta rfl⟩

/-! ### Combined totals of the `work` kind (C1) -/

theorem string_append_left_cancel {s a b : String} (h : s ++ a = s ++ b) : a = b := by
  have h' := congrArg String.data h
  rw [String.data_append, String.data_append] at h'
  exact String.ext (List.append_cancel_left h')

theorem resident_ne_total (x y : String) : ("resident_" ++ x) ≠ ("total_" ++ y) := by
  intro h
  have h' := congrArg String.data h
  rw [String.data_append, String.data_append] at h'
  simp at h'

theorem nonresident_ne_total (x y : String) :
    ("nonresident_" ++ x) ≠ ("total_" ++ y) := by
  intro h
  have h' := congrArg String.data h
  rw [String.data_append, String.data_append] at h'
  simp at h'

theorem mergeOn_aligned (l r : Table) (k : String) :
    ∀ row ∈ (mergeOn l r k).rows, row.length = (mergeOn l r k).cols.length := by
  intro row hrow
  obtain ⟨lr, _, rr, _, _, rfl⟩ := mem_mergeOn_rows.mp hrow
  rw [show (mergeOn l r k).cols = l.cols ++ r.cols.filter (fun c => c ≠ k) from rfl]
  simp [List.length_append, List.length_map]

theorem setColF_cols_subset (t : Table) (n : String) (f : List Val → Val) :
    ∀ c ∈ (setColF t n f).cols, c ∈ t.cols ∨ c = n := by
  intro c hc
  unfold setColF at hc
  by_cases hn : n ∈ t.cols
  · rw [if_pos hn] at hc
    exact .inl hc
  · rw [if_neg hn] at hc
    rcases List.mem_append.mp hc with h | h
    · exact .inl h
    · exact .inr (List.mem_singleton.mp h)

/-- Unrolling the combined-totals loop: every output row extends a base row,
the pre-existing columns read back unchanged, and each `total_<g>` column
holds the sum of the base row's `resident_<g>` and `nonresident_<g>`. -/
theorem addGroupTotals_spec : ∀ (gs : List String) (t : Table),
    (∀ r ∈ t.rows, r.length = t.cols.length) →
    (∀ g ∈ gs, ("total_" ++ g) ∉ t.cols) →
    gs.Nodup →
    ∀ row' ∈ (addGroupTotals t gs).rows,
      ∃ row ∈ t.rows,
        (∀ c : String, (∀ g ∈ gs, c ≠ "total_" ++ g) →
          lookupVal (addGroupTotals t gs).cols row' c = lookupVal t.cols row c) ∧
        (∀ g ∈ gs, lookupVal (addGroupTotals t gs).cols row' ("total_" ++ g) =
          Val.int ((lookupVal t.cols row ("resident_" ++ g)).toIntOr0 +
                   (lookupVal t.cols row ("nonresident_" ++ g)).toIntOr0)) := by
  intro gs
  induction gs with
  | nil =>
    intro t _ _ _ row' hrow'
    exact ⟨row', hrow', fun _ _ => rfl, fun g hg => absurd hg (List.not_mem_nil g)⟩
  | cons g gs ih =>
    intro t hal hfresh hnd row' hrow'
    have hng : ("total_" ++ g) ∉ t.cols := hfresh g (List.mem_cons_self _ _)
    have hgmem : g ∉ gs := (List.nodup_cons.mp hnd).1
    have hrow'' : row' ∈ (addGroupTotals (sumTwoCols t ("total_" ++ g)
        ("resident_" ++ g) ("nonresident_" ++ g)) gs).rows := hrow'
    have hal' : ∀ r ∈ (sumTwoCols t ("total_" ++ g) ("resident_" ++ g)
        ("nonresident_" ++ g)).rows,
        r.length = (sumTwoCols t ("total_" ++ g) ("resident_" ++ g)
          ("nonresident_" ++ g)).cols.length := setColF_aligned t _ _ hal
    have hfresh' : ∀ g' ∈ gs, ("total_" ++ g') ∉ (sumTwoCols t ("total_" ++ g)
        ("resident_" ++ g) ("nonresident_" ++ g)).cols := by
      intro g' hg' hmem
      rcases setColF_cols_subset t _ _ _ hmem with h | h
      · exact hfresh g' (List.mem_cons_of_mem _ hg') h
      · exact hgmem (string_append_left_cancel h ▸ hg')
    obtain ⟨row₁, hrow₁, hother, htotals⟩ :=
      ih _ hal' hfresh' (List.nodup_cons.mp hnd).2 row' hrow''
    obtain ⟨row, hrow, hself2, hother2⟩ :=
      mem_setColF_rows t ("total_" ++ g) _ hal hrow₁
    have hsum : sumTwoCols t ("total_" ++ g) ("resident_" ++ g) ("nonresident_" ++ g) =
        setColF t ("total_" ++ g) (fun r =>
          Val.int ((lookupVal t.cols r ("resident_" ++ g)).toIntOr0 +
                   (lookupVal t.cols r ("nonresident_" ++ g)).toIntOr0)) := rfl
    rw [← hsum] at hself2 hother2
    have hstep : addGroupTotals t (g :: gs) = addGroupTotals (sumTwoCols t
        ("total_" ++ g) ("resident_" ++ g) ("nonresident_" ++ g)) gs := rfl
    refine ⟨row, hrow, ?_, ?_⟩
    · intro c hc
      rw [hstep, hother c (fun g' hg' => hc g' (List.mem_cons_of_mem _ hg'))]
      exact hother2 c (hc g (List.mem_cons_self _ _))
    · intro g' hg'
      rcases List.mem_cons.mp hg' with rfl | hg''
      · rw [hstep, hother ("total_" ++ g')
          (fun g'' hg'' e => hgmem ((string_append_left_cancel e) ▸ hg''))]
        rw [hself2]
      · rw [hstep, htotals g' hg'']
        rw [hother2 ("resident_" ++ g') (resident_ne_total _ _),
            hother2 ("nonresident_" ++ g') (nonresident_ne_total _ _)]

theorem total_groups_not_geo :
    ∀ g ∈ summaryGroups, matchesGeoRegex ("total_" ++ g) = false := by decide

theorem total_groups_not_S :
    ∀ g ∈ summaryGroups, strStartsWith ("total_" ++ g) "S" = false := by decide

theorem total_groups_ne_geoid : ∀ g ∈ summaryGroups, "geo_id" ≠ "total_" ++ g := by decide

theorem total_groups_ne_total : ∀ g ∈ summaryGroups, "total" ≠ "total_" ++ g := by decide

theorem total_groups_notin_resident_vals : ∀ g ∈ summaryGroups,
    ("total_" ++ g) ∉ (summaryRenameMap "resident").map (fun p => p.2) := by decide

theorem total_groups_notin_nonresident_vals : ∀ g ∈ summaryGroups,
    ("total_" ++ g) ∉ (summaryRenameMap "nonresident").map (fun p => p.2) := by decide

theorem rt_ne_totals : ∀ g ∈ summaryGroups, "resident_total" ≠ "total_" ++ g := by decide

theorem nrt_ne_totals : ∀ g ∈ summaryGroups,
    "nonresident_total" ≠ "total_" ++ g := by decide

theorem summaryGroups_nodup : summaryGroups.Nodup := by decide

/-- The columns a tag block contributes: `geo_id`, raw S-columns, or the tag's
rename-dictionary values. -/
theorem mem_tagBlock_cols (tag : String) (flag : Int) (data2 : Table)
    (scols : List String) :
    ∀ c ∈ (tagBlock tag flag data2 scols).cols,
      c = "geo_id" ∨ c ∈ scols ∨
      c ∈ (summaryRenameMap tag).map (fun p => p.2) := by
  intro c hc
  rw [show (tagBlock tag flag data2 scols).cols = ("geo_id" :: scols).map
    (fun c0 => (List.lookup c0 (summaryRenameMap tag)).getD c0) from rfl] at hc
  obtain ⟨c0, hc0, rfl⟩ := List.mem_map.mp hc
  cases hl : List.lookup c0 (summaryRenameMap tag) with
  | some v =>
    right; right
    rw [Option.getD_some]
    exact lookup_mem_values _ _ _ hl
  | none =>
    rw [Option.getD_none]
    rcases List.mem_cons.mp hc0 with rfl | h
    · exact .inl rfl
    · exact .inr (.inl h)

/-- The columns of the merged `work` frame before the totals are appended. -/
theorem mem_out2_cols (data2 : Table) (scols : List String) :
    ∀ c ∈ (mergeOn (mergeOn
        (resetIndexDrop (dropDupBy (filterColsRegexGeo data2) "geo_id"))
        (tagBlock "resident" 1 data2 scols) "geo_id")
        (tagBlock "nonresident" 0 data2 scols) "geo_id").cols,
      matchesGeoRegex c = true ∨ c = "geo_id" ∨ c ∈ scols ∨
      c ∈ (summaryRenameMap "resident").map (fun p => p.2) ∨
      c ∈ (summaryRenameMap "nonresident").map (fun p => p.2) := by
  intro c hc
  rcases List.mem_append.mp hc with h | h
  · rcases List.mem_append.mp h with h' | h'
    · have h'' : c ∈ data2.cols.filter matchesGeoRegex := h'
      exact .inl (List.of_mem_filter h'')
    · rcases mem_tagBlock_cols _ _ _ _ c (List.mem_of_mem_filter h') with h'' | h'' | h''
      · exact .inr (.inl h'')
      · exact .inr (.inr (.inl h''))
      · exact .inr (.inr (.inr (.inl h'')))
  · rcases mem_tagBlock_cols _ _ _ _ c (List.mem_of_mem_filter h) with h'' | h'' | h''
    · exact .inr (.inl h'')
    · exact .inr (.inr (.inl h''))
    · exact .inr (.inr (.inr (.inr h'')))

/-- No `total_<g>` column exists before the totals loop runs. -/
theorem work_total_groups_fresh (data2 : Table) (scols : List String)
    (hs : ∀ c ∈ scols, strStartsWith c "S" = true) :
    ∀ g ∈ summaryGroups, ("total_" ++ g) ∉ (sumTwoCols (mergeOn (mergeOn
        (resetIndexDrop (dropDupBy (filterColsRegexGeo data2) "geo_id"))
        (tagBlock "resident" 1 data2 scols) "geo_id")
        (tagBlock "nonresident" 0 data2 scols) "geo_id")
        "total" "resident_total" "nonresident_total").cols := by
  intro g hg hmem
  rcases setColF_cols_subset _ _ _ _ hmem with h | h
  · rcases mem_out2_cols data2 scols _ h with h' | h' | h' | h' | h'
    · rw [total_groups_not_geo g hg] at h'
      exact Bool.noConfusion h'
    · exact total_groups_ne_geoid g hg h'.symm
    · have := hs _ h'
      rw [total_groups_not_S g hg] at this
      exact Bool.noConfusion this
    · exact total_groups_notin_resident_vals g hg h'
    · exact total_groups_notin_nonresident_vals g hg h'
  · exact total_groups_ne_total g hg h.symm

theorem nonres_groups_not_geo :
    ∀ g ∈ summaryGroups, matchesGeoRegex ("nonresident_" ++ g) = false := by decide

theorem nonres_groups_not_S :
    ∀ g ∈ summaryGroups, strStartsWith ("nonresident_" ++ g) "S" = false := by decide

theorem nonres_groups_ne_geoid :
    ∀ g ∈ summaryGroups, "geo_id" ≠ "nonresident_" ++ g := by decide

theorem resident_vals_ne_forbidden :
    ∀ v ∈ (summaryRenameMap "resident").map (fun p => p.2),
      v ≠ "total" ∧ v ≠ "nonresident_total" ∧
      ∀ g ∈ summaryGroups, v ≠ "total_" ++ g ∧ v ≠ "nonresident_" ++ g := by decide

theorem geo_regex_total : matchesGeoRegex "total" = false := by decide

theorem geo_regex_nrt : matchesGeoRegex "nonresident_total" = false := by decide

theorem s_total : strStartsWith "total" "S" = false := by decide

theorem s_nrt : strStartsWith "nonresident_total" "S" = false := by decide

theorem rows_resetIndexDrop (t : Table) : (resetIndexDrop t).rows = t.rows := rfl

theorem cols_resetIndexDrop (t : Table) : (resetIndexDrop t).cols = t.cols := rfl

theorem cols_sortValuesBy (t : Table) (key : String) :
    (sortValuesBy t key).cols = t.cols := rfl

theorem ne_of_true_false (p : String → Bool) (c d : String)
    (h : p c = true) (hd : p d = false) : c ≠ d := by
  intro e
  rw [e, hd] at h
  exact Bool.noConfusion h

theorem geoid_ne_total : "geo_id" ≠ "total" := by decide

theorem geoid_ne_nrt : "geo_id" ≠ "nonresident_total" := by decide

set_option maxHeartbeats 2000000 in
/-- Core of C1's `work` part: in the sorted pivot frame of the `work` kind,
every row's combined `total` and `total_<g>` columns equal the sum of the
resident and nonresident counterparts read from the same row. -/
theorem summary_work_core (data2 : Table) (scols : List String)
    (hs : ∀ c ∈ scols, strStartsWith c "S" = true) :
    ∀ row ∈ (resetIndexDrop (sortValuesBy (summaryOut "w_geocode" data2 scols)
        "geo_id")).rows,
      lookupVal (resetIndexDrop (sortValuesBy (summaryOut "w_geocode" data2 scols)
          "geo_id")).cols row "total" =
        Val.int ((lookupVal (resetIndexDrop (sortValuesBy
            (summaryOut "w_geocode" data2 scols) "geo_id")).cols row
            "resident_total").toIntOr0 +
          (lookupVal (resetIndexDrop (sortValuesBy
            (summaryOut "w_geocode" data2 scols) "geo_id")).cols row
            "nonresident_total").toIntOr0) ∧
      ∀ g ∈ summaryGroups,
        lookupVal (resetIndexDrop (sortValuesBy (summaryOut "w_geocode" data2 scols)
            "geo_id")).cols row ("total_" ++ g) =
          Val.int ((lookupVal (resetIndexDrop (sortValuesBy
              (summaryOut "w_geocode" data2 scols) "geo_id")).cols row
              ("resident_" ++ g)).toIntOr0 +
            (lookupVal (resetIndexDrop (sortValuesBy
              (summaryOut "w_geocode" data2 scols) "geo_id")).cols row
              ("nonresident_" ++ g)).toIntOr0) := by
  intro row hrow
  have hred : summaryOut "w_geocode" data2 scols =
      addGroupTotals (sumTwoCols (mergeOn (mergeOn
        (resetIndexDrop (dropDupBy (filterColsRegexGeo data2) "geo_id"))
        (tagBlock "resident" 1 data2 scols) "geo_id")
        (tagBlock "nonresident" 0 data2 scols) "geo_id")
        "total" "resident_total" "nonresident_total") summaryGroups := rfl
  rw [rows_resetIndexDrop] at hrow
  have hrow4 : row ∈ (summaryOut "w_geocode" data2 scols).rows :=
    mem_rows_sortValuesBy hrow
  rw [hred] at hrow4
  have hal2 : ∀ r ∈ (mergeOn (mergeOn
      (resetIndexDrop (dropDupBy (filterColsRegexGeo data2) "geo_id"))
      (tagBlock "resident" 1 data2 scols) "geo_id")
      (tagBlock "nonresident" 0 data2 scols) "geo_id").rows,
      r.length = (mergeOn (mergeOn
      (resetIndexDrop (dropDupBy (filterColsRegexGeo data2) "geo_id"))
      (tagBlock "resident" 1 data2 scols) "geo_id")
      (tagBlock "nonresident" 0 data2 scols) "geo_id").cols.length :=
    mergeOn_aligned _ _ _
  have hal3 := setColF_aligned (mergeOn (mergeOn
      (resetIndexDrop (dropDupBy (filterColsRegexGeo data2) "geo_id"))
      (tagBlock "resident" 1 data2 scols) "geo_id")
      (tagBlock "nonresident" 0 data2 scols) "geo_id") "total"
      (fun r => Val.int ((lookupVal (mergeOn (mergeOn
        (resetIndexDrop (dropDupBy (filterColsRegexGeo data2) "geo_id"))
        (tagBlock "resident" 1 data2 scols) "geo_id")
        (tagBlock "nonresident" 0 data2 scols) "geo_id").cols r
          "resident_total").toIntOr0 +
        (lookupVal (mergeOn (mergeOn
        (resetIndexDrop (dropDupBy (filterColsRegexGeo data2) "geo_id"))
        (tagBlock "resident" 1 data2 scols) "geo_id")
        (tagBlock "nonresident" 0 data2 scols) "geo_id").cols r
          "nonresident_total").toIntOr0)) hal2
  obtain ⟨row₃, hrow₃, hother, htot⟩ :=
    addGroupTotals_spec summaryGroups _ hal3 (work_total_groups_fresh data2 scols hs)
      summaryGroups_nodup row hrow4
  obtain ⟨row₂, hrow₂, hself0, hother0⟩ :=
    mem_setColF_rows _ "total" _ hal2 hrow₃
  have hsum : sumTwoCols (mergeOn (mergeOn
      (resetIndexDrop (dropDupBy (filterColsRegexGeo data2) "geo_id"))
      (tagBlock "resident" 1 data2 scols) "geo_id")
      (tagBlock "nonresident" 0 data2 scols) "geo_id")
      "total" "resident_total" "nonresident_total" = setColF (mergeOn (mergeOn
      (resetIndexDrop (dropDupBy (filterColsRegexGeo data2) "geo_id"))
      (tagBlock "resident" 1 data2 scols) "geo_id")
      (tagBlock "nonresident" 0 data2 scols) "geo_id") "total"
      (fun r => Val.int ((lookupVal (mergeOn (mergeOn
        (resetIndexDrop (dropDupBy (filterColsRegexGeo data2) "geo_id"))
        (tagBlock "resident" 1 data2 scols) "geo_id")
        (tagBlock "nonresident" 0 data2 scols) "geo_id").cols r
          "resident_total").toIntOr0 +
        (lookupVal (mergeOn (mergeOn
        (resetIndexDrop (dropDupBy (filterColsRegexGeo data2) "geo_id"))
        (tagBlock "resident" 1 data2 scols) "geo_id")
        (tagBlock "nonresident" 0 data2 scols) "geo_id").cols r
          "nonresident_total").toIntOr0)) := rfl
  rw [cols_resetIndexDrop, cols_sortValuesBy, hred, hsum]
  refine ⟨?_, ?_⟩
  · rw [hother "total" total_groups_ne_total,
      hother "resident_total" rt_ne_totals,
      hother "nonresident_total" nrt_ne_totals, hself0,
      hother0 "resident_total" (by decide), hother0 "nonresident_total" (by decide)]
  · intro g hg
    rw [htot g hg, hother ("resident_" ++ g) (fun g' _ => resident_ne_total g g'),
      hother ("nonresident_" ++ g) (fun g' _ => nonresident_ne_total g g')]

/-- Core of C1's `home` part: the sorted pivot frame of the `home` kind
contains none of the combined-total or nonresident columns. -/
theorem summary_home_core (data2 : Table) (scols : List String)
    (hs : ∀ c ∈ scols, strStartsWith c "S" = true) :
    ∀ c ∈ (resetIndexDrop (sortValuesBy (summaryOut "h_geocode" data2 scols)
        "geo_id")).cols,
      c ≠ "total" ∧ c ≠ "nonresident_total" ∧
      ∀ g ∈ summaryGroups, c ≠ "total_" ++ g ∧ c ≠ "nonresident_" ++ g := by
  intro c hc
  have hred : summaryOut "h_geocode" data2 scols =
      mergeOn (resetIndexDrop (dropDupBy (filterColsRegexGeo data2) "geo_id"))
        (tagBlock "resident" 1 data2 scols) "geo_id" := by
    unfold summaryOut
    rw [if_neg (by decide)]
  rw [cols_resetIndexDrop, cols_sortValuesBy, hred] at hc
  have hcases : matchesGeoRegex c = true ∨ c = "geo_id" ∨ c ∈ scols ∨
      c ∈ (summaryRenameMap "resident").map (fun p => p.2) := by
    rcases List.mem_append.mp hc with h | h
    · exact .inl (List.of_mem_filter h)
    · rcases mem_tagBlock_cols _ _ _ _ c (List.mem_of_mem_filter h) with h' | h' | h'
      · exact .inr (.inl h')
      · exact .inr (.inr (.inl h'))
      · exact .inr (.inr (.inr h'))
  rcases hcases with h | rfl | h | h
  · exact ⟨ne_of_true_false matchesGeoRegex c "total" h geo_regex_total,
      ne_of_true_false matchesGeoRegex c "nonresident_total" h geo_regex_nrt,
      fun g hg =>
        ⟨ne_of_true_false matchesGeoRegex c ("total_" ++ g) h
            (total_groups_not_geo g hg),
          ne_of_true_false matchesGeoRegex c ("nonresident_" ++ g) h
            (nonres_groups_not_geo g hg)⟩⟩
  · exact ⟨geoid_ne_total, geoid_ne_nrt,
      fun g hg => ⟨total_groups_ne_geoid g hg, nonres_groups_ne_geoid g hg⟩⟩
  · have hS := hs c h
    exact ⟨ne_of_true_false (fun s => strStartsWith s "S") c "total" hS s_total,
      ne_of_true_false (fun s => strStartsWith s "S") c "nonresident_total" hS s_nrt,
      fun g hg =>
        ⟨ne_of_true_false (fun s => strStartsWith s "S") c ("total_" ++ g) hS
            (total_groups_not_S g hg),
          ne_of_true_false (fun s => strStartsWith s "S") c ("nonresident_" ++ g) hS
            (nonres_groups_not_S g hg)⟩⟩
  · exact resident_vals_ne_forbidden c h

/-- C1: in the OD summary pipeline with `kind == "work"`, every output row
satisfies `total = resident_total + nonresident_total` and, for every
demographic group `g`, `total_<g> = resident_<g> + nonresident_<g>`; with
`kind == "home"`, the output has no `total`/`total_<g>` columns and no
`nonresident_*` columns. -/
theorem summary_totals_and_home_columns (year : Int) (jobType : String)
    (files : String → Table) (tracts : Table) :
    (∀ out : Table,
      (downloadSummary year "work" jobType files tracts).1 = .ok out →
      ∀ row ∈ out.rows,
        lookupVal out.cols row "total" =
          Val.int ((lookupVal out.cols row "resident_total").toIntOr0 +
            (lookupVal out.cols row "nonresident_total").toIntOr0) ∧
        ∀ g ∈ summaryGroups,
          lookupVal out.cols row ("total_" ++ g) =
            Val.int ((lookupVal out.cols row ("resident_" ++ g)).toIntOr0 +
              (lookupVal out.cols row ("nonresident_" ++ g)).toIntOr0)) ∧
    (∀ out : Table,
      (downloadSummary year "home" jobType files tracts).1 = .ok out →
      ∀ c ∈ out.cols, c ≠ "total" ∧ c ≠ "nonresident_total" ∧
        ∀ g ∈ summaryGroups, c ≠ "total_" ++ g ∧ c ≠ "nonresident_" ++ g) := by
  constructor
  · intro out h
    unfold downloadSummary at h
    split at h
    · exact absurd h (by simp)
    split at h
    · exact absurd h (by simp)
    split at h
    · exact absurd h (by simp)
    · rename_i kindCol hkind
      have h2 : (some "w_geocode" : Option String) = some kindCol := hkind
      injection h2 with h2
      subst h2
      have heq : _ = out := Except.ok.injEq _ _ ▸ h
      subst heq
      exact summary_work_core _ _ (fun c hc => (List.mem_filter.mp hc).2)
  · intro out h
    unfold downloadSummary at h
    split at h
    · exact absurd h (by simp)
    split at h
    · exact absurd h (by simp)
    split at h
    · exact absurd h (by simp)
    · rename_i kindCol hkind
      have h2 : (some "h_geocode" : Option String) = some kindCol := hkind
      injection h2 with h2
      subst h2
      have heq : _ = out := Except.ok.injEq _ _ ▸ h
      subst heq
      exact summary_home_core _ _ (fun c hc => (List.mem_filter.mp hc).2)

set_option maxRecDepth 8000 in
theorem wOutSummaryWork_rows : wOutSummaryWork.rows = [wRowSummary] := rfl

/-- Witness: the totals identity on the concrete work-kind output row, and
the absence facts at the concrete home-kind column `geo_id`. -/
theorem summary_totals_and_home_columns_witness :
    (lookupVal wOutSummaryWork.cols wRowSummary "total" =
      Val.int ((lookupVal wOutSummaryWork.cols wRowSummary
          "resident_total").toIntOr0 +
        (lookupVal wOutSummaryWork.cols wRowSummary
          "nonresident_total").toIntOr0)) ∧
    ("geo_id" : String) ≠ "total" ∧ ("geo_id" : String) ≠ "nonresident_total" ∧
    (∀ g ∈ summaryGroups,
      ("geo_id" : String) ≠ "total_" ++ g ∧
      ("geo_id" : String) ≠ "nonresident_" ++ g) := by
  have h := summary_totals_and_home_columns 2002 "all" wFilesSummary wTracts
  have hmem : wRowSummary ∈ wOutSummaryWork.rows := by
    rw [wOutSummaryWork_rows]
    exact List.mem_singleton_self _
  have hw := h.1 wOutSummaryWork rfl wRowSummary hmem
  have hh := h.2 wOutSummaryHome rfl "geo_id" (by decide)
  exact ⟨hw.1, hh.1, hh.2.1, hh.2.2⟩

theorem exists_zip_pair {α β : Type} : ∀ (ys : List β) (xs : List α),
    xs.length = ys.length → ∀ y : β, y ∈ ys → ∃ p ∈ xs.zip ys, p.2 = y := by
  intro ys
  induction ys with
  | nil =>
    intro xs h y hy
    cases hy
  | cons b bs ih =>
    intro xs h y hy
    cases xs with
    | nil => simp at h
    | cons a as =>
      rcases List.mem_cons.mp hy with rfl | hy'
      · exact ⟨(a, y), List.mem_cons_self _ _, rfl⟩
      · obtain ⟨p, hp, hpy⟩ := ih as (by simpa using h) y hy'
        exact ⟨p, List.mem_cons_of_mem _ hp, hpy⟩

theorem rows_sortValuesBy (t : Table) (key : String) :
    (sortValuesBy t key).rows =
      (List.insertionSort (rowKeyLE t.cols key) (t.index.zip t.rows)).map
        (fun pr => pr.2) := rfl

theorem mem_sortValuesBy_of_mem {t : Table} {key : String} {row : List Val}
    (hidx : t.index.length = t.rows.length) (h : row ∈ t.rows) :
    row ∈ (sortValuesBy t key).rows := by
  obtain ⟨pr, hpr, hpr2⟩ := exists_zip_pair t.rows t.index hidx row h
  rw [rows_sortValuesBy]
  exact List.mem_map.mpr ⟨pr, (List.mem_insertionSort _).mpr hpr, hpr2⟩

theorem rows_filterRowsT (t : Table) (p : List Val → Bool) :
    (filterRowsT t p).rows =
      ((t.index.zip t.rows).filter (fun pr => p pr.2)).map (fun pr => pr.2) := rfl

theorem mem_rows_filterRowsT {t : Table} {p : List Val → Bool} {row : List Val}
    (h : row ∈ (filterRowsT t p).rows) : row ∈ t.rows ∧ p row = true := by
  rw [rows_filterRowsT] at h
  obtain ⟨pr, hpr, rfl⟩ := List.mem_map.mp h
  obtain ⟨hz, hp⟩ := List.mem_filter.mp hpr
  exact ⟨(List.of_mem_zip hz).2, hp⟩

theorem filterRowsT_mem_of {t : Table} {p : List Val → Bool} {row : List Val}
    (hidx : t.index.length = t.rows.length) (h : row ∈ t.rows)
    (hp : p row = true) : row ∈ (filterRowsT t p).rows := by
  obtain ⟨pr, hpr, hpr2⟩ := exists_zip_pair t.rows t.index hidx row h
  rw [rows_filterRowsT]
  refine List.mem_map.mpr ⟨pr, List.mem_filter.mpr ⟨hpr, ?_⟩, hpr2⟩
  rw [hpr2]
  exact hp

theorem cols_dropDupBy (t : Table) (key : String) : (dropDupBy t key).cols = t.cols := rfl

theorem rows_dropDupBy (t : Table) (key : String) :
    (dropDupBy t key).rows =
      (dropDupByAux t.cols key (t.index.zip t.rows) []).map (fun pr => pr.2) := rfl

theorem dropDupByAux_unfold (cols : List String) (key : String)
    (q : Nat × List Val) (rest : List (Nat × List Val)) (seen : List Val) :
    dropDupByAux cols key (q :: rest) seen =
      if seen.contains (lookupVal cols q.2 key) then dropDupByAux cols key rest seen
      else q :: dropDupByAux cols key rest (lookupVal cols q.2 key :: seen) := rfl

theorem dropDupByAux_sub (cols : List String) (key : String) :
    ∀ (prs : List (Nat × List Val)) (seen : List Val) (pr : Nat × List Val),
      pr ∈ dropDupByAux cols key prs seen → pr ∈ prs := by
  intro prs
  induction prs with
  | nil =>
    intro seen pr h
    cases h
  | cons q rest ih =>
    intro seen pr h
    rw [dropDupByAux_unfold] at h
    by_cases hc : seen.contains (lookupVal cols q.2 key)
    · rw [if_pos hc] at h
      exact List.mem_cons_of_mem _ (ih seen pr h)
    · rw [if_neg hc] at h
      rcases List.mem_cons.mp h with rfl | h'
      · exact List.mem_cons_self _ _
      · exact List.mem_cons_of_mem _ (ih _ pr h')

theorem dropDupByAux_exists (cols : List String) (key : String) :
    ∀ (prs : List (Nat × List Val)) (seen : List Val) (v : Val), v ∉ seen →
      (∃ pr ∈ prs, lookupVal cols pr.2 key = v) →
      ∃ pr ∈ dropDupByAux cols key prs seen, lookupVal cols pr.2 key = v := by
  intro prs
  induction prs with
  | nil =>
    intro seen v _ h
    obtain ⟨pr, hpr, _⟩ := h
    cases hpr
  | cons q rest ih =>
    intro seen v hv h
    obtain ⟨pr, hpr, hprv⟩ := h
    rw [dropDupByAux_unfold]
    by_cases hc : seen.contains (lookupVal cols q.2 key)
    · rw [if_pos hc]
      rcases List.mem_cons.mp hpr with rfl | h'
      · exact absurd (hprv ▸ List.elem_iff.mp hc) hv
      · exact ih seen v hv ⟨pr, h', hprv⟩
    · rw [if_neg hc]
      by_cases hqv : lookupVal cols q.2 key = v
      · exact ⟨q, List.mem_cons_self _ _, hqv⟩
      · rcases List.mem_cons.mp hpr with rfl | h'
        · exact absurd hprv hqv
        · obtain ⟨pr', hpr', hv'⟩ := ih (lookupVal cols q.2 key :: seen) v
            (fun hmem => by
              rcases List.mem_cons.mp hmem with h | h
              · exact hqv h.symm
              · exact hv h) ⟨pr, h', hprv⟩
          exact ⟨pr', List.mem_cons_of_mem _ hpr', hv'⟩

theorem mem_rows_dropDupBy {t : Table} {key : String} {row : List Val}
    (h : row ∈ (dropDupBy t key).rows) : row ∈ t.rows := by
  rw [rows_dropDupBy] at h
  obtain ⟨pr, hpr, rfl⟩ := List.mem_map.mp h
  exact (List.of_mem_zip (dropDupByAux_sub _ _ _ _ _ hpr)).2

theorem dropDupBy_exists_key {t : Table} {key : String} {v : Val}
    (hidx : t.index.length = t.rows.length)
    (h : ∃ r ∈ t.rows, lookupVal t.cols r key = v) :
    ∃ r ∈ (dropDupBy t key).rows, lookupVal t.cols r key = v := by
  obtain ⟨r, hr, hrv⟩ := h
  obtain ⟨pr, hpr, hpr2⟩ := exists_zip_pair t.rows t.index hidx r hr
  obtain ⟨pr', hpr', hv'⟩ := dropDupByAux_exists t.cols key (t.index.zip t.rows)
    [] v (List.not_mem_nil v) ⟨pr, hpr, by rw [hpr2]; exact hrv⟩
  rw [rows_dropDupBy]
  exact ⟨pr'.2, List.mem_map_of_mem _ hpr', hv'⟩

theorem setColF_mem_forward (t : Table) (name : String) (f : List Val → Val)
    (c : String) (hc : c ≠ name)
    (hal : ∀ r ∈ t.rows, r.length = t.cols.length) :
    ∀ r ∈ t.rows, ∃ r' ∈ (setColF t name f).rows,
      lookupVal (setColF t name f).cols r' c = lookupVal t.cols r c := by
  intro r hr
  unfold setColF
  by_cases hn : name ∈ t.cols
  · rw [if_pos hn]
    exact ⟨setAtFirst t.cols r name (f r), List.mem_map_of_mem _ hr,
      lookupVal_setAtFirst_other (fun e => hc e.symm)⟩
  · rw [if_neg hn]
    refine ⟨r ++ [f r], List.mem_map_of_mem _ hr, ?_⟩
    by_cases hcm : c ∈ t.cols
    · exact lookupVal_append_left _ _ _ _ _ (hal r hr) hcm
    · rw [lookupVal_append_right _ _ _ _ _ (hal r hr) hcm, lookupVal_cons,
        if_neg (fun e => hc e.symm), lookupVal_nil_cols]
      exact (lookupVal_not_mem hcm).symm

theorem sumTwoCols_mem_forward (t : Table) (name c1 c2 c : String) (hc : c ≠ name)
    (hal : ∀ r ∈ t.rows, r.length = t.cols.length) :
    ∀ r ∈ t.rows, ∃ r' ∈ (sumTwoCols t name c1 c2).rows,
      lookupVal (sumTwoCols t name c1 c2).cols r' c = lookupVal t.cols r c :=
  setColF_mem_forward t name _ c hc hal

theorem sumTwoCols_aligned (t : Table) (name c1 c2 : String)
    (hal : ∀ r ∈ t.rows, r.length = t.cols.length) :
    ∀ r ∈ (sumTwoCols t name c1 c2).rows,
      r.length = (sumTwoCols t name c1 c2).cols.length :=
  setColF_aligned t name _ hal

theorem sumTwoCols_mem_back (t : Table) (name c1 c2 : String)
    (hal : ∀ r ∈ t.rows, r.length = t.cols.length) {row : List Val}
    (h : row ∈ (sumTwoCols t name c1 c2).rows) :
    ∃ r ∈ t.rows, ∀ c, c ≠ name →
      lookupVal (sumTwoCols t name c1 c2).cols row c = lookupVal t.cols r c := by
  obtain ⟨r, hr, _, hother⟩ := mem_setColF_rows t name _ hal h
  exact ⟨r, hr, hother⟩

theorem setColF_index (t : Table) (n : String) (f : List Val → Val) :
    (setColF t n f).index = t.index := by
  unfold setColF
  split
  · rfl
  · rfl

theorem setColF_rows_length (t : Table) (n : String) (f : List Val → Val) :
    (setColF t n f).rows.length = t.rows.length := by
  unfold setColF
  split
  · exact List.length_map _ _
  · exact List.length_map _ _

theorem sumTwoCols_index (t : Table) (name c1 c2 : String) :
    (sumTwoCols t name c1 c2).index = t.index := setColF_index t name _

theorem sumTwoCols_rows_length (t : Table) (name c1 c2 : String) :
    (sumTwoCols t name c1 c2).rows.length = t.rows.length := setColF_rows_length t name _

theorem addGroupTotals_cons (t : Table) (g : String) (gs : List String) :
    addGroupTotals t (g :: gs) =
      addGroupTotals
        (sumTwoCols t ("total_" ++ g) ("resident_" ++ g) ("nonresident_" ++ g))
        gs := rfl

theorem addGroupTotals_index : ∀ (gs : List String) (t : Table),
    (addGroupTotals t gs).index = t.index := by
  intro gs
  induction gs with
  | nil => intro t; rfl
  | cons g gs ih =>
    intro t
    rw [addGroupTotals_cons, ih, sumTwoCols_index]

theorem addGroupTotals_rows_length : ∀ (gs : List String) (t : Table),
    (addGroupTotals t gs).rows.length = t.rows.length := by
  intro gs
  induction gs with
  | nil => intro t; rfl
  | cons g gs ih =>
    intro t
    rw [addGroupTotals_cons, ih, sumTwoCols_rows_length]

theorem addGroupTotals_mem_forward : ∀ (gs : List String) (t : Table) (c : String),
    (∀ g ∈ gs, c ≠ "total_" ++ g) →
    (∀ r ∈ t.rows, r.length = t.cols.length) →
    ∀ r ∈ t.rows, ∃ r' ∈ (addGroupTotals t gs).rows,
      lookupVal (addGroupTotals t gs).cols r' c = lookupVal t.cols r c := by
  intro gs
  induction gs with
  | nil =>
    intro t c _ _ r hr
    exact ⟨r, hr, rfl⟩
  | cons g gs ih =>
    intro t c hc hal r hr
    obtain ⟨r1, hr1, he1⟩ := sumTwoCols_mem_forward t ("total_" ++ g)
      ("resident_" ++ g) ("nonresident_" ++ g) c (hc g (List.mem_cons_self _ _))
      hal r hr
    obtain ⟨r', hr', he'⟩ := ih
      (sumTwoCols t ("total_" ++ g) ("resident_" ++ g) ("nonresident_" ++ g)) c
      (fun g' hg' => hc g' (List.mem_cons_of_mem _ hg'))
      (sumTwoCols_aligned _ _ _ _ hal) r1 hr1
    rw [addGroupTotals_cons]
    exact ⟨r', hr', by rw [he', he1]⟩

theorem addGroupTotals_mem_back : ∀ (gs : List String) (t : Table),
    (∀ r ∈ t.rows, r.length = t.cols.length) →
    ∀ row' ∈ (addGroupTotals t gs).rows, ∃ row ∈ t.rows,
      ∀ c, (∀ g ∈ gs, c ≠ "total_" ++ g) →
        lookupVal (addGroupTotals t gs).cols row' c = lookupVal t.cols row c := by
  intro gs
  induction gs with
  | nil =>
    intro t _ row' h
    exact ⟨row', h, fun _ _ => rfl⟩
  | cons g gs ih =>
    intro t hal row' hrow'
    rw [addGroupTotals_cons] at hrow'
    obtain ⟨row₁, hrow₁, hpres⟩ := ih _ (sumTwoCols_aligned _ _ _ _ hal) row' hrow'
    obtain ⟨row, hrow, hother⟩ := sumTwoCols_mem_back t _ _ _ hal hrow₁
    refine ⟨row, hrow, fun c hcz => ?_⟩
    rw [addGroupTotals_cons,
      hpres c (fun g' hg' => hcz g' (List.mem_cons_of_mem _ hg')),
      hother c (hcz g (List.mem_cons_self _ _))]

theorem ren_tag_geo (tag : String) :
    ((List.lookup "geo_id" (summaryRenameMap tag)).getD "geo_id") = "geo_id" := rfl

theorem tagBlock_rows_eq (tag : String) (flag : Int) (data2 : Table)
    (scols : List String) :
    (tagBlock tag flag data2 scols).rows =
      ((filterRowsT data2
        (fun r => lookupVal data2.cols r "is_resident" == Val.int flag)).rows).map
        (fun r => ("geo_id" :: scols).map (lookupVal data2.cols r)) := rfl

theorem tagBlock_cols_eq (tag : String) (flag : Int) (data2 : Table)
    (scols : List String) :
    (tagBlock tag flag data2 scols).cols =
      ("geo_id" :: scols).map
        (fun c => (List.lookup c (summaryRenameMap tag)).getD c) := rfl

theorem lookupVal_tagRow_geo (tag : String) (scols : List String) (f : String → Val) :
    lookupVal
      (("geo_id" :: scols).map (fun c => (List.lookup c (summaryRenameMap tag)).getD c))
      (("geo_id" :: scols).map f) "geo_id" = f "geo_id" := by
  rw [List.map_cons, List.map_cons, lookupVal_cons, ren_tag_geo, if_pos rfl]

theorem mergeOn_row_geo (l r : Table) (k : String) (lr rr : List Val) (c : String)
    (hmem : c ∈ l.cols) :
    lookupVal (mergeOn l r k).cols
      (l.cols.map (lookupVal l.cols lr) ++
        (r.cols.filter (fun x => x ≠ k)).map (lookupVal r.cols rr)) c =
      lookupVal l.cols lr c := by
  rw [show (mergeOn l r k).cols = l.cols ++ r.cols.filter (fun x => x ≠ k) from rfl,
    lookupVal_append_left _ _ _ _ _ (List.length_map _ _) hmem,
    lookupVal_map_self, if_pos hmem]

theorem mergeOn_mem_of (l r : Table) (k c : String) (hc : c ∈ l.cols)
    {lr rr : List Val} (hlr : lr ∈ l.rows) (hrr : rr ∈ r.rows)
    (hkey : lookupVal r.cols rr k = lookupVal l.cols lr k) :
    ∃ row ∈ (mergeOn l r k).rows,
      lookupVal (mergeOn l r k).cols row c = lookupVal l.cols lr c :=
  ⟨_, mem_mergeOn_rows.mpr ⟨lr, hlr, rr, hrr, hkey, rfl⟩,
    mergeOn_row_geo l r k lr rr c hc⟩

/-- The membership core of the `work`-kind pivot: a tract id reaches the
output exactly when the grouped frame holds a resident-classified and a
nonresident-classified record for it. -/
theorem summary_work_membership_core (data2 : Table) (scols : List String)
    (hgeo : "geo_id" ∈ data2.cols)
    (hidx : data2.index.length = data2.rows.length) :
    ∀ g : Val,
      (∃ row ∈ (resetIndexDrop (sortValuesBy (summaryOut "w_geocode" data2 scols)
          "geo_id")).rows,
        lookupVal (resetIndexDrop (sortValuesBy (summaryOut "w_geocode" data2 scols)
          "geo_id")).cols row "geo_id" = g) ↔
      ((∃ r ∈ data2.rows, lookupVal data2.cols r "geo_id" = g ∧
          lookupVal data2.cols r "is_resident" = Val.int 1) ∧
       (∃ r ∈ data2.rows, lookupVal data2.cols r "geo_id" = g ∧
          lookupVal data2.cols r "is_resident" = Val.int 0)) := by
  intro g
  have hred : summaryOut "w_geocode" data2 scols =
      addGroupTotals (sumTwoCols (mergeOn (mergeOn
        (resetIndexDrop (dropDupBy (filterColsRegexGeo data2) "geo_id"))
        (tagBlock "resident" 1 data2 scols) "geo_id")
        (tagBlock "nonresident" 0 data2 scols) "geo_id")
        "total" "resident_total" "nonresident_total") summaryGroups := rfl
  have hal2 := mergeOn_aligned (mergeOn
      (resetIndexDrop (dropDupBy (filterColsRegexGeo data2) "geo_id"))
      (tagBlock "resident" 1 data2 scols) "geo_id")
      (tagBlock "nonresident" 0 data2 scols) "geo_id"
  have hmemgeo0 : "geo_id" ∈
      (resetIndexDrop (dropDupBy (filterColsRegexGeo data2) "geo_id")).cols := by
    rw [show (resetIndexDrop (dropDupBy (filterColsRegexGeo data2) "geo_id")).cols =
      data2.cols.filter matchesGeoRegex from rfl]
    exact List.mem_filter.mpr ⟨hgeo, by decide⟩
  have hmemgeo1 : "geo_id" ∈ (mergeOn
      (resetIndexDrop (dropDupBy (filterColsRegexGeo data2) "geo_id"))
      (tagBlock "resident" 1 data2 scols) "geo_id").cols := by
    rw [show (mergeOn (resetIndexDrop (dropDupBy (filterColsRegexGeo data2)
      "geo_id")) (tagBlock "resident" 1 data2 scols) "geo_id").cols =
      (resetIndexDrop (dropDupBy (filterColsRegexGeo data2) "geo_id")).cols ++
        (tagBlock "resident" 1 data2 scols).cols.filter (fun x => x ≠ "geo_id")
      from rfl]
    exact List.mem_append_left _ hmemgeo0
  constructor
  · rintro ⟨row, hrow, hgv⟩
    rw [rows_resetIndexDrop] at hrow
    have hrow4 := mem_rows_sortValuesBy hrow
    rw [hred] at hrow4
    rw [cols_resetIndexDrop, cols_sortValuesBy, hred] at hgv
    obtain ⟨row₃, hrow₃, hpres⟩ := addGroupTotals_mem_back summaryGroups _
      (sumTwoCols_aligned _ _ _ _ hal2) row hrow4
    obtain ⟨row₂, hrow₂, hother⟩ := sumTwoCols_mem_back _ _ _ _ hal2 hrow₃
    have e2 : lookupVal (mergeOn (mergeOn
        (resetIndexDrop (dropDupBy (filterColsRegexGeo data2) "geo_id"))
        (tagBlock "resident" 1 data2 scols) "geo_id")
        (tagBlock "nonresident" 0 data2 scols) "geo_id").cols row₂ "geo_id" = g := by
      rw [← hother "geo_id" (by decide), ← hpres "geo_id" total_groups_ne_geoid]
      exact hgv
    obtain ⟨lr1, hlr1, rr0, hrr0, hkey0, hrow₂eq⟩ := mem_mergeOn_rows.mp hrow₂
    subst hrow₂eq
    rw [mergeOn_row_geo _ _ _ _ _ _ hmemgeo1] at e2
    obtain ⟨l0, hl0, rr1, hrr1, hkey1, hlr1eq⟩ := mem_mergeOn_rows.mp hlr1
    subst hlr1eq
    rw [mergeOn_row_geo _ _ _ _ _ _ hmemgeo0] at e2
    rw [mergeOn_row_geo _ _ _ _ _ _ hmemgeo0] at hkey0
    rw [tagBlock_rows_eq] at hrr1 hrr0
    obtain ⟨r1, hr1, hrr1eq⟩ := List.mem_map.mp hrr1
    obtain ⟨r0, hr0, hrr0eq⟩ := List.mem_map.mp hrr0
    obtain ⟨hr1m, hp1⟩ := mem_rows_filterRowsT hr1
    obtain ⟨hr0m, hp0⟩ := mem_rows_filterRowsT hr0
    constructor
    · refine ⟨r1, hr1m, ?_, ?_⟩
      · have h' := hkey1
        rw [← hrr1eq, tagBlock_cols_eq, lookupVal_tagRow_geo] at h'
        exact h'.trans e2
      · simpa using hp1
    · refine ⟨r0, hr0m, ?_, ?_⟩
      · have h' := hkey0
        rw [← hrr0eq, tagBlock_cols_eq, lookupVal_tagRow_geo] at h'
        exact h'.trans e2
      · simpa using hp0
  · rintro ⟨⟨r1, hr1, hg1, hres1⟩, ⟨r0, hr0, hg0, hres0⟩⟩
    have hidxF : (filterColsRegexGeo data2).index.length =
        (filterColsRegexGeo data2).rows.length := by
      rw [show (filterColsRegexGeo data2).index = data2.index from rfl,
        show (filterColsRegexGeo data2).rows = data2.rows.map (fun r =>
          (data2.cols.filter matchesGeoRegex).map (lookupVal data2.cols r)) from rfl,
        List.length_map]
      exact hidx
    have hmemf : "geo_id" ∈ data2.cols.filter matchesGeoRegex :=
      List.mem_filter.mpr ⟨hgeo, by decide⟩
    obtain ⟨l0, hl0, hl0g⟩ :=
      @dropDupBy_exists_key (filterColsRegexGeo data2) "geo_id" g hidxF
        ⟨(data2.cols.filter matchesGeoRegex).map (lookupVal data2.cols r1),
          List.mem_map_of_mem _ hr1, by
            rw [show (filterColsRegexGeo data2).cols =
              data2.cols.filter matchesGeoRegex from rfl, lookupVal_map_self,
              if_pos hmemf]
            exact hg1⟩
    have hl0' : l0 ∈ (resetIndexDrop (dropDupBy (filterColsRegexGeo data2)
        "geo_id")).rows := by
      rw [rows_resetIndexDrop]
      exact hl0
    have e0 : lookupVal (resetIndexDrop (dropDupBy (filterColsRegexGeo data2)
        "geo_id")).cols l0 "geo_id" = g := by
      rw [show (resetIndexDrop (dropDupBy (filterColsRegexGeo data2)
        "geo_id")).cols = (filterColsRegexGeo data2).cols from rfl]
      exact hl0g
    have hrr1 : ("geo_id" :: scols).map (lookupVal data2.cols r1) ∈
        (tagBlock "resident" 1 data2 scols).rows := by
      rw [tagBlock_rows_eq]
      exact List.mem_map_of_mem _ (filterRowsT_mem_of hidx hr1 (by simp [hres1]))
    have hkey1 : lookupVal (tagBlock "resident" 1 data2 scols).cols
        (("geo_id" :: scols).map (lookupVal data2.cols r1)) "geo_id" =
        lookupVal (resetIndexDrop (dropDupBy (filterColsRegexGeo data2)
          "geo_id")).cols l0 "geo_id" := by
      rw [tagBlock_cols_eq, lookupVal_tagRow_geo, hg1, e0]
    obtain ⟨w1, hw1, hw1g⟩ := mergeOn_mem_of
      (resetIndexDrop (dropDupBy (filterColsRegexGeo data2) "geo_id"))
      (tagBlock "resident" 1 data2 scols) "geo_id" "geo_id" hmemgeo0 hl0' hrr1 hkey1
    have hw1g' : lookupVal (mergeOn
        (resetIndexDrop (dropDupBy (filterColsRegexGeo data2) "geo_id"))
        (tagBlock "resident" 1 data2 scols) "geo_id").cols w1 "geo_id" = g :=
      hw1g.trans e0
    have hrr0 : ("geo_id" :: scols).map (lookupVal data2.cols r0) ∈
        (tagBlock "nonresident" 0 data2 scols).rows := by
      rw [tagBlock_rows_eq]
      exact List.mem_map_of_mem _ (filterRowsT_mem_of hidx hr0 (by simp [hres0]))
    have hkey0 : lookupVal (tagBlock "nonresident" 0 data2 scols).cols
        (("geo_id" :: scols).map (lookupVal data2.cols r0)) "geo_id" =
        lookupVal (mergeOn
          (resetIndexDrop (dropDupBy (filterColsRegexGeo data2) "geo_id"))
          (tagBlock "resident" 1 data2 scols) "geo_id").cols w1 "geo_id" := by
      rw [tagBlock_cols_eq, lookupVal_tagRow_geo, hg0, hw1g']
    obtain ⟨w2, hw2, hw2g⟩ := mergeOn_mem_of
      (mergeOn (resetIndexDrop (dropDupBy (filterColsRegexGeo data2) "geo_id"))
        (tagBlock "resident" 1 data2 scols) "geo_id")
      (tagBlock "nonresident" 0 data2 scols) "geo_id" "geo_id" hmemgeo1 hw1 hrr0 hkey0
    have hw2g' := hw2g.trans hw1g'
    obtain ⟨w3, hw3, hw3g⟩ := sumTwoCols_mem_forward (mergeOn (mergeOn
        (resetIndexDrop (dropDupBy (filterColsRegexGeo data2) "geo_id"))
        (tagBlock "resident" 1 data2 scols) "geo_id")
        (tagBlock "nonresident" 0 data2 scols) "geo_id")
      "total" "resident_total" "nonresident_total" "geo_id" (by decide) hal2 w2 hw2
    have hw3g' := hw3g.trans hw2g'
    obtain ⟨w4, hw4, hw4g⟩ := addGroupTotals_mem_forward summaryGroups
      (sumTwoCols (mergeOn (mergeOn
        (resetIndexDrop (dropDupBy (filterColsRegexGeo data2) "geo_id"))
        (tagBlock "resident" 1 data2 scols) "geo_id")
        (tagBlock "nonresident" 0 data2 scols) "geo_id")
        "total" "resident_total" "nonresident_total") "geo_id"
      total_groups_ne_geoid (sumTwoCols_aligned _ _ _ _ hal2) w3 hw3
    have hw4g' := hw4g.trans hw3g'
    have hidx4 : (addGroupTotals (sumTwoCols (mergeOn (mergeOn
        (resetIndexDrop (dropDupBy (filterColsRegexGeo data2) "geo_id"))
        (tagBlock "resident" 1 data2 scols) "geo_id")
        (tagBlock "nonresident" 0 data2 scols) "geo_id")
        "total" "resident_total" "nonresident_total") summaryGroups).index.length =
        (addGroupTotals (sumTwoCols (mergeOn (mergeOn
        (resetIndexDrop (dropDupBy (filterColsRegexGeo data2) "geo_id"))
        (tagBlock "resident" 1 data2 scols) "geo_id")
        (tagBlock "nonresident" 0 data2 scols) "geo_id")
        "total" "resident_total" "nonresident_total") summaryGroups).rows.length := by
      rw [addGroupTotals_index, sumTwoCols_index,
        show (mergeOn (mergeOn
          (resetIndexDrop (dropDupBy (filterColsRegexGeo data2) "geo_id"))
          (tagBlock "resident" 1 data2 scols) "geo_id")
          (tagBlock "nonresident" 0 data2 scols) "geo_id").index =
          List.range (mergeOn (mergeOn
          (resetIndexDrop (dropDupBy (filterColsRegexGeo data2) "geo_id"))
          (tagBlock "resident" 1 data2 scols) "geo_id")
          (tagBlock "nonresident" 0 data2 scols) "geo_id").rows.length from rfl,
        List.length_range, addGroupTotals_rows_length, sumTwoCols_rows_length]
    rw [rows_resetIndexDrop, cols_resetIndexDrop, cols_sortValuesBy, hred]
    exact ⟨w4, mem_sortValuesBy_of_mem hidx4 hw4, hw4g'⟩

/-- C9: in the OD summary pipeline with `kind == "work"`, a tract id appears
in the output iff the grouped tract-level frame `data2` holds both a
resident-classified and a nonresident-classified record for it — the resident
and nonresident column blocks are attached by inner joins on `geo_id`, so a
tract whose records fall entirely into one resident class is silently dropped
from the output. -/
theorem summary_work_inner_join_membership (year : Int) (jobType jt : String)
    (files : String → Table) (tracts : Table) (out : Table)
    (hjt : List.lookup jobType allowed_job_types = some jt)
    (h : (downloadSummary year "work" jobType files tracts).1 = .ok out) :
    ∀ g : Val,
      (∃ row ∈ out.rows, lookupVal out.cols row "geo_id" = g) ↔
      ((∃ r ∈ (workData2 jt year files tracts).rows,
          lookupVal (workData2 jt year files tracts).cols r "geo_id" = g ∧
          lookupVal (workData2 jt year files tracts).cols r "is_resident" =
            Val.int 1) ∧
       (∃ r ∈ (workData2 jt year files tracts).rows,
          lookupVal (workData2 jt year files tracts).cols r "geo_id" = g ∧
          lookupVal (workData2 jt year files tracts).cols r "is_resident" =
            Val.int 0)) := by
  have hgeo : "geo_id" ∈ (workData2 jt year files tracts).cols := by
    rw [show (workData2 jt year files tracts).cols =
      (astypeStrCol tracts "geo_id").cols ++
        ("trct" :: "is_resident" :: (summaryData "w_geocode" jt year files
          (astypeStrCol tracts "geo_id")).cols.filter
          (fun c => strStartsWith c "S")) from rfl]
    exact List.mem_append_left _ (mem_cols_mapColVals tracts "geo_id" Val.astypeStr)
  have hidx : (workData2 jt year files tracts).index.length =
      (workData2 jt year files tracts).rows.length := by
    rw [show (workData2 jt year files tracts).index =
      List.range (workData2 jt year files tracts).rows.length from rfl,
      List.length_range]
  unfold downloadSummary at h
  split at h
  · exact absurd h (by simp)
  split at h
  · exact absurd h (by simp)
  · rename_i jt' hjt'
    split at h
    · exact absurd h (by simp)
    · rename_i kindCol hkind
      have h2 : (some "w_geocode" : Option String) = some kindCol := hkind
      injection h2 with h2
      subst h2
      rw [hjt] at hjt'
      injection hjt' with hjt2
      subst hjt2
      have heq : _ = out := Except.ok.injEq _ _ ▸ h
      subst heq
      exact summary_work_membership_core _ _ hgeo hidx

set_option maxRecDepth 8000 in
/-- Witness: on the fixture, tract 42101000100 carries both a resident and a
nonresident grouped record, and indeed reaches the work-kind output. -/
theorem summary_work_inner_join_membership_witness :
    ∃ row ∈ wOutSummaryWork.rows,
      lookupVal wOutSummaryWork.cols row "geo_id" = Val.str "42101000100" := by
  have hrows : (workData2 "JT00" 2002 wFilesSummary wTracts).rows =
      [[.str "42101000100", .str "poly1", .str "42101000100", .int 0, .int 4,
        .int 2],
       [.str "42101000100", .str "poly1", .str "42101000100", .int 1, .int 5,
        .int 1]] := rfl
  have hcols : (workData2 "JT00" 2002 wFilesSummary wTracts).cols =
      ["geo_id", "geometry", "trct", "is_resident", "S000", "SA01"] := rfl
  refine (summary_work_inner_join_membership 2002 "all" "JT00" wFilesSummary
      wTracts wOutSummaryWork rfl rfl (Val.str "42101000100")).mpr
    ⟨⟨[Val.str "42101000100", Val.str "poly1", Val.str "42101000100", Val.int 1,
        Val.int 5, Val.int 1], ?_, ?_, ?_⟩,
     ⟨[Val.str "42101000100", Val.str "poly1", Val.str "42101000100", Val.int 0,
        Val.int 4, Val.int 2], ?_, ?_, ?_⟩⟩
  · rw [hrows]
    exact List.mem_cons_of_mem _ (List.mem_cons_self _ _)
  · rw [hcols]
    rfl
  · rw [hcols]
    rfl
  · rw [hrows]
    exact List.mem_cons_self _ _
  · rw [hcols]
    rfl
  · rw [hcols]
    rfl

end PhlCensus
